import Mathlib

/-!
The package basicauth: an HTTP Basic authentication wrapper

A shallow embedding of `basicauth.go` (package `basicauth`) together with the
parts of the Go standard library its decision depends on (`strings.HasPrefix`,
`encoding/base64`'s `StdEncoding`, `bytes.SplitN`, `bytes.Equal`, `http.Header`,
`http.Error`), followed by theorems about `Protect`.

Go strings and `[]byte` values are byte sequences; both are `Bytes` here.
-/

namespace Basicauth

/-! ## Bytes and string literals -/

/-- A Go `byte`. -/
abbrev Byte := Fin 256

/-- A Go `[]byte` or `string`: a finite sequence of bytes. -/
abbrev Bytes := List Byte

/-- Go's conversion `byte(n)` of an unsigned integer: the low eight bits. -/
def byte (n : Nat) : Byte := Fin.ofNat n

/-- The bytes of an ASCII string literal of the source. -/
def lit (s : String) : Bytes := s.toList.map (fun c => byte c.toNat)

/-! ## package strings / bytes -/

/-- Go's `strings.HasPrefix(s, prefix)`:
`len(s) >= len(prefix) && s[:len(prefix)] == prefix`. -/
def HasPrefix (s pre : Bytes) : Bool :=
  decide (pre.length ≤ s.length) && (s.take pre.length == pre)

/-- Go's slice expression `s[i:]`; `none` is the run-time panic for `i > len(s)`. -/
def sliceFrom (s : Bytes) (i : Nat) : Option Bytes :=
  if i ≤ s.length then some (s.drop i) else none

/-- Go's `bytes.Equal(a, b)`. -/
def Equal (a b : Bytes) : Bool := a == b

/-- Go's `bytes.Index(s, sep)`: the index of the first instance of `sep` in `s`;
`none` stands for the result `-1`. -/
def Index : Bytes → Bytes → Option Nat
  | [], sep => if sep.isEmpty then some 0 else none
  | c :: s, sep =>
    if HasPrefix (c :: s) sep then some 0 else (Index s sep).map (· + 1)

/-- The loop of Go's `bytes.genSplit` (with `sepSave = 0`): `n` is the number of
cuts still allowed. -/
def genSplitLoop : Nat → Bytes → Bytes → List Bytes
  | 0, s, _ => [s]
  | n + 1, s, sep =>
    match Index s sep with
    | none => [s]
    | some m => s.take m :: genSplitLoop n (s.drop (m + sep.length)) sep

/-- Go's `bytes.SplitN(s, sep, n)` for a non-empty separator and `n ≥ 0`
(the only use in the source is `SplitN(payload, []byte(":"), 2)`):
`n == 0` gives nil, and `n` is capped at `len(s) + 1`. -/
def SplitN (s sep : Bytes) (n : Nat) : List Bytes :=
  if n = 0 then []
  else genSplitLoop (min n (s.length + 1) - 1) s sep

/-! ## package encoding/base64, `StdEncoding` -/

/-- The alphabet of `base64.StdEncoding` (`encodeStd`). -/
def encodeStd : Bytes :=
  lit "ABCDEFGHIJKLMNOPQRSTUVWXYZabcdefghijklmnopqrstuvwxyz0123456789+/"

/-- The padding character of `base64.StdEncoding` (`StdPadding`), `'='`. -/
def padChar : Byte := 61

/-- Entry `enc.encode[i]` of the encoding table. -/
def encode (i : Nat) : Byte := encodeStd.getD i 0

/-- Entry `enc.decodeMap[c]`: the position of `c` in the alphabet, `0xFF` for a
byte that is not in it. -/
def decodeMap (c : Byte) : Nat :=
  let i := encodeStd.indexOf c
  if i < 64 then i else 0xFF

/-- Go's `(*Encoding).EncodeToString` for `StdEncoding`: three source bytes
become four characters; a remainder of one or two bytes is padded with `=`. -/
def EncodeToString : Bytes → Bytes
  | a :: b :: c :: rest =>
    let val := (a.val <<< 16) ||| (b.val <<< 8) ||| c.val
    encode (val >>> 18 &&& 0x3F) :: encode (val >>> 12 &&& 0x3F) ::
      encode (val >>> 6 &&& 0x3F) :: encode (val &&& 0x3F) :: EncodeToString rest
  | [a, b] =>
    let val := (a.val <<< 16) ||| (b.val <<< 8)
    [encode (val >>> 18 &&& 0x3F), encode (val >>> 12 &&& 0x3F),
      encode (val >>> 6 &&& 0x3F), padChar]
  | [a] =>
    let val := a.val <<< 16
    [encode (val >>> 18 &&& 0x3F), encode (val >>> 12 &&& 0x3F), padChar, padChar]
  | [] => []

/-- The bytes `'\n'` and `'\r'`, which the decoder ignores. -/
def isNewline (c : Byte) : Bool := c == 10 || c == 13

/-- The decoder's `for si < len(src) && (src[si] == '\n' || src[si] == '\r') { si++ }`. -/
def skipNewlines : Bytes → Bytes
  | [] => []
  | c :: s => if isNewline c then skipNewlines s else c :: s

/-- The tail of `decodeQuantum`: "Convert 4x 6bit source bytes into 3 bytes",
of which `dlen - 1` are output (`StdEncoding` is not strict, so the unused low
bits are not checked). -/
def assemble (dbuf : List Nat) (dlen : Nat) : Bytes :=
  let val := (dbuf.getD 0 0 <<< 18) ||| (dbuf.getD 1 0 <<< 12) |||
    (dbuf.getD 2 0 <<< 6) ||| dbuf.getD 3 0
  [byte (val >>> 16), byte (val >>> 8), byte (val >>> 0)].take (dlen - 1)

/-- What one call of `decodeQuantum` returns: the unread input `src[nsi:]`, the
bytes written to `dst`, and whether `err != nil`. -/
structure Quantum where
  rest : Bytes
  out : Bytes
  err : Bool
deriving DecidableEq, Repr

/-- Go's `(*Encoding).decodeQuantum` for `StdEncoding`, as a loop over the unread
input: `dbuf` holds the sextets read so far and `j = dbuf.length`. -/
def decodeQuantum : Bytes → List Nat → Quantum
  | [], dbuf =>
    if 4 ≤ dbuf.length then ⟨[], assemble dbuf 4, false⟩
    -- len(src) == si: j == 0 returns (si, 0, nil); otherwise CorruptInputError
    else if dbuf.length = 0 then ⟨[], [], false⟩
    else ⟨[], [], true⟩
  | c :: src, dbuf =>
    if 4 ≤ dbuf.length then ⟨c :: src, assemble dbuf 4, false⟩
    else if decodeMap c ≠ 0xFF then decodeQuantum src (dbuf ++ [decodeMap c])
    else if isNewline c then decodeQuantum src dbuf
    else if c ≠ padChar then ⟨src, [], true⟩
    else if dbuf.length < 2 then ⟨src, [], true⟩ -- incorrect padding
    else if dbuf.length = 2 then
      -- "==" is expected, the first "=" is already consumed
      match skipNewlines src with
      | [] => ⟨[], [], true⟩ -- not enough padding
      | c2 :: src2 =>
        if c2 ≠ padChar then ⟨src2, [], true⟩ -- incorrect padding
        else
          -- trailing garbage is an error
          ⟨skipNewlines src2, assemble dbuf 2, !(skipNewlines src2).isEmpty⟩
    else ⟨skipNewlines src, assemble dbuf dbuf.length, !(skipNewlines src).isEmpty⟩

/-- Go's `(*Encoding).Decode` for `StdEncoding`: `decodeQuantum` is called while
input remains (the word-at-a-time fast paths decode the same bytes). `acc` is
`dst[:n]`; `none` is `err != nil`. Each quantum on non-empty input consumes at
least one byte, so `fuel = len(src)` calls are enough (`Decode_fuel`). -/
def Decode : Nat → Bytes → Bytes → Option Bytes
  | _, [], acc => some acc
  | 0, _ :: _, _ => none
  | fuel + 1, c :: src, acc =>
    let q := decodeQuantum (c :: src) []
    if q.err then none else Decode fuel q.rest (acc ++ q.out)

/-- Go's `(*Encoding).DecodeString` for `StdEncoding`; `none` is `err != nil`
(the offset carried by `CorruptInputError` and the partial output are dropped:
`Protect` only tests `err != nil`). -/
def DecodeString (s : Bytes) : Option Bytes := Decode s.length s []

/-! ## RFC 4648 reference for the decoder -/

/-- Whether `c` is one of the 64 characters of the standard alphabet. -/
def inAlphabet (c : Byte) : Bool := encodeStd.contains c

/-- The input with every `'\r'` and `'\n'` removed. -/
def stripNewlines (s : Bytes) : Bytes := s.filter (fun c => !isNewline c)

/-- Valid standard Base64 with padding (RFC 4648, section 4): groups of four
characters of the alphabet, where the last group may end in `=` or `==`. The
unused low bits of a padded group are not constrained. -/
def validStd : Bytes → Bool
  | [] => true
  | a :: b :: c :: d :: rest =>
    inAlphabet a && inAlphabet b &&
      ((inAlphabet c && inAlphabet d && validStd rest) ||
        (rest.isEmpty && d == padChar && (inAlphabet c || c == padChar)))
  | _ => false

/-- Group-by-group decoding of an input without newlines (RFC 4648, section 4):
four characters give three bytes, `xxx=` gives two and `xx==` gives one. -/
def decodeQuanta : Bytes → Option Bytes
  | [] => some []
  | a :: b :: c :: d :: rest =>
    if inAlphabet a && inAlphabet b then
      if inAlphabet c && inAlphabet d then
        (decodeQuanta rest).map
          (fun t => assemble [decodeMap a, decodeMap b, decodeMap c, decodeMap d] 4 ++ t)
      else if rest.isEmpty && d == padChar then
        if inAlphabet c then some (assemble [decodeMap a, decodeMap b, decodeMap c] 3)
        else if c == padChar then some (assemble [decodeMap a, decodeMap b] 2)
        else none
      else none
    else none
  | _ => none

/-- One `decodeQuantum` started with `dbuf`, then the rest of `Decode`. -/
def afterQuantum (fuel : Nat) (s : Bytes) (dbuf : List Nat) (acc : Bytes) : Option Bytes :=
  if (decodeQuantum s dbuf).err then none
  else Decode fuel (decodeQuantum s dbuf).rest (acc ++ (decodeQuantum s dbuf).out)

/-! ## package net/http: headers, requests, response writers -/

/-- Go's `http.Header`, a `map[string][]string`, as an association list in which
the first entry for a key is the map's entry. -/
abbrev Header := List (Bytes × List Bytes)

/-- Go's `textproto.validHeaderFieldByte`: the bytes allowed in a header name
(RFC 7230 token characters). -/
def validHeaderFieldByte (c : Byte) : Bool :=
  (48 ≤ c.val && c.val ≤ 57) || (97 ≤ c.val && c.val ≤ 122) || (65 ≤ c.val && c.val ≤ 90) ||
    (lit "!#$%&'*+-.^_`|~").contains c

/-- The canonicalising loop of Go's `textproto.canonicalMIMEHeaderKey`: upper case
for the first letter and for a letter after a hyphen, lower case elsewhere. -/
def canonicalLoop : Bool → Bytes → Bytes
  | _, [] => []
  | upper, c :: s =>
    let c2 : Byte :=
      if upper && decide (97 ≤ c.val) && decide (c.val ≤ 122) then byte (c.val - 32)
      else if !upper && decide (65 ≤ c.val) && decide (c.val ≤ 90) then byte (c.val + 32)
      else c
    c2 :: canonicalLoop (c2 == 45) s

/-- Go's `textproto.CanonicalMIMEHeaderKey`: a key with a byte that is not valid
in a header name is returned unchanged. -/
def CanonicalMIMEHeaderKey (s : Bytes) : Bytes :=
  if s.all validHeaderFieldByte then canonicalLoop true s else s

namespace Header

/-- Go's `Header.Get(key)`: the first value of the canonical key, `""` if none. -/
def Get (h : Header) (key : Bytes) : Bytes :=
  match h.lookup (CanonicalMIMEHeaderKey key) with
  | some (v :: _) => v
  | _ => []

/-- Go's `Header.Set(key, value)`: the canonical key's entry becomes `[value]`. -/
def Set (h : Header) (key value : Bytes) : Header :=
  (CanonicalMIMEHeaderKey key, [value]) ::
    h.filter (fun e => e.1 != CanonicalMIMEHeaderKey key)

/-- Go's `Header.Del(key)`. -/
def Del (h : Header) (key : Bytes) : Header :=
  h.filter (fun e => e.1 != CanonicalMIMEHeaderKey key)

end Header

/-- The part of Go's `http.Request` a handler can read. `Protect` reads only
`Header`; the other fields stand for the rest of the request, which it passes on. -/
structure Request where
  Method : Bytes
  URL : Bytes
  Header : Header
  Body : Bytes
deriving DecidableEq, Repr

/-- The state behind an `http.ResponseWriter`, with the fields of
`httptest.ResponseRecorder` (the writer of the repository's tests): the status
`Code`, the header map, the body written so far, and whether the header has been
written. -/
structure ResponseWriter where
  Code : Nat
  HeaderMap : Header
  Body : Bytes
  wroteHeader : Bool
deriving DecidableEq, Repr

/-- Go's `httptest.NewRecorder()`. -/
def NewRecorder : ResponseWriter := ⟨200, [], [], false⟩

namespace ResponseWriter

/-- Go's `w.Header().Set(key, value)`. -/
def SetHeader (w : ResponseWriter) (key value : Bytes) : ResponseWriter :=
  { w with HeaderMap := w.HeaderMap.Set key value }

/-- Go's `w.Header().Del(key)`. -/
def DelHeader (w : ResponseWriter) (key : Bytes) : ResponseWriter :=
  { w with HeaderMap := w.HeaderMap.Del key }

/-- Go's `WriteHeader(code)`: a call after the header has been written changes
nothing. -/
def WriteHeader (w : ResponseWriter) (code : Nat) : ResponseWriter :=
  if w.wroteHeader then w else { w with Code := code, wroteHeader := true }

/-- Go's `Write(buf)`: an implicit `WriteHeader(http.StatusOK)` if the header has
not been written, then the bytes are appended to the body. (The Content-Type
sniffing a writer does on a first write without a Content-Type is not modelled;
`http.Error` sets the Content-Type before it writes.) -/
def Write (w : ResponseWriter) (buf : Bytes) : ResponseWriter :=
  let w1 := w.WriteHeader 200
  { w1 with Body := w1.Body ++ buf }

end ResponseWriter

/-- Go's `http.StatusUnauthorized`. -/
def StatusUnauthorized : Nat := 401

/-- Go's `http.StatusOK`. -/
def StatusOK : Nat := 200

/-- The table behind Go's `http.StatusText`. -/
def statusTexts : List (Nat × String) :=
  [(100, "Continue"), (101, "Switching Protocols"), (102, "Processing"), (103, "Early Hints"),
   (200, "OK"), (201, "Created"), (202, "Accepted"), (203, "Non-Authoritative Information"),
   (204, "No Content"), (205, "Reset Content"), (206, "Partial Content"), (207, "Multi-Status"),
   (208, "Already Reported"), (226, "IM Used"),
   (300, "Multiple Choices"), (301, "Moved Permanently"), (302, "Found"), (303, "See Other"),
   (304, "Not Modified"), (305, "Use Proxy"), (307, "Temporary Redirect"),
   (308, "Permanent Redirect"),
   (400, "Bad Request"), (401, "Unauthorized"), (402, "Payment Required"), (403, "Forbidden"),
   (404, "Not Found"), (405, "Method Not Allowed"), (406, "Not Acceptable"),
   (407, "Proxy Authentication Required"), (408, "Request Timeout"), (409, "Conflict"),
   (410, "Gone"), (411, "Length Required"), (412, "Precondition Failed"),
   (413, "Request Entity Too Large"), (414, "Request URI Too Long"),
   (415, "Unsupported Media Type"), (416, "Requested Range Not Satisfiable"),
   (417, "Expectation Failed"), (418, "I'm a teapot"), (421, "Misdirected Request"),
   (422, "Unprocessable Entity"), (423, "Locked"), (424, "Failed Dependency"),
   (425, "Too Early"), (426, "Upgrade Required"), (428, "Precondition Required"),
   (429, "Too Many Requests"), (431, "Request Header Fields Too Large"),
   (451, "Unavailable For Legal Reasons"),
   (500, "Internal Server Error"), (501, "Not Implemented"), (502, "Bad Gateway"),
   (503, "Service Unavailable"), (504, "Gateway Timeout"),
   (505, "HTTP Version Not Supported"), (506, "Variant Also Negotiates"),
   (507, "Insufficient Storage"), (508, "Loop Detected"), (510, "Not Extended"),
   (511, "Network Authentication Required")]

/-- Go's `http.StatusText(code)`: the reason phrase, `""` for an unknown code. -/
def StatusText (code : Nat) : Bytes :=
  match statusTexts.lookup code with
  | some s => lit s
  | none => []

/-- Go's `http.Error(w, error, code)`: the Content-Length is deleted, the
Content-Type and X-Content-Type-Options are set, the status is written, and
`fmt.Fprintln(w, error)` writes the text and a newline. -/
def Error (w : ResponseWriter) (error : Bytes) (code : Nat) : ResponseWriter :=
  let w1 := w.DelHeader (lit "Content-Length")
  let w2 := w1.SetHeader (lit "Content-Type") (lit "text/plain; charset=utf-8")
  let w3 := w2.SetHeader (lit "X-Content-Type-Options") (lit "nosniff")
  let w4 := w3.WriteHeader code
  w4.Write (error ++ lit "\n")

/-- Go's `http.HandlerFunc`, `func(ResponseWriter, *Request)`, as a function from
the writer's state before the call to its state after. -/
abbrev HandlerFunc := ResponseWriter → Request → ResponseWriter

/-! ## package basicauth -/

/-- The source's `Credentials`: a structure of user credentials. -/
structure Credentials where
  User : Bytes
  Password : Bytes
deriving DecidableEq, Repr

/-- The source's `Provider` interface: `Find(u []byte) (Credentials, error)`.
Go returns both values; the error is `none` for `nil`. -/
structure Provider where
  Find : Bytes → Credentials × Option Bytes

/-- The source's `BasicAuth`: a wrapper holding a provider. -/
structure BasicAuth where
  p : Provider

/-- The source's `New`: a wrapper which uses the provider `p`. -/
def New (p : Provider) : BasicAuth := ⟨p⟩

/-- The source's `const realm = "Restricted"`. -/
def realm : Bytes := lit "Restricted"

/-- The source's `const prefix string = "Basic "` inside `Protect`. -/
def basicPrefix : Bytes := lit "Basic "

/-- The closure `fail` of `Protect`: the challenge header, then
`http.Error(w, http.StatusText(http.StatusUnauthorized), http.StatusUnauthorized)`. -/
def fail (w : ResponseWriter) : ResponseWriter :=
  Error (w.SetHeader (lit "WWW-Authenticate") (lit "Basic realm=\"" ++ realm ++ lit "\""))
    (StatusText StatusUnauthorized) StatusUnauthorized

/-- What the handler returned by `Protect` did, in order: a call `p.Find(u)`, a
call `fail(w)`, a call `h(w, r)`, or a run-time panic (slice or index out of
range). -/
inductive Event where
  | find (u : Bytes)
  | fail
  | handler (w : ResponseWriter) (r : Request)
  | panic
deriving DecidableEq, Repr

/-- The result of serving one request: the writer's state afterwards and the
events in order. -/
structure Outcome where
  w : ResponseWriter
  events : List Event
deriving DecidableEq, Repr

/-- The source's `Protect(h, p)`: the returned handler, applied to a writer and a
request. -/
def Protect (h : HandlerFunc) (p : Provider) (w : ResponseWriter) (r : Request) : Outcome :=
  let auth := r.Header.Get (lit "Authorization")
  if !HasPrefix auth basicPrefix then ⟨fail w, [Event.fail]⟩
  else
    match sliceFrom auth basicPrefix.length with
    | none => ⟨w, [Event.panic]⟩
    | some enc =>
      match DecodeString enc with
      | none => ⟨fail w, [Event.fail]⟩
      | some payload =>
        let pair := SplitN payload (lit ":") 2
        if pair.length ≠ 2 then ⟨fail w, [Event.fail]⟩
        else
          match pair[0]?, pair[1]? with
          | some user, some password =>
            let c := (p.Find user).1
            let err := (p.Find user).2
            if err.isSome || !Equal password c.Password then
              ⟨fail w, [Event.find user, Event.fail]⟩
            else ⟨h w r, [Event.find user, Event.handler w r]⟩
          | _, _ => ⟨w, [Event.panic]⟩

/-- The source's method `(a BasicAuth) Protect(h)`. -/
def BasicAuth.Protect (a : BasicAuth) (h : HandlerFunc) (w : ResponseWriter) (r : Request) :
    Outcome :=
  Basicauth.Protect h a.p w r

/-- The handler called `h`: whether `h(w, r)` is among the events. -/
def Outcome.accepted (o : Outcome) : Bool :=
  o.events.any (fun e => match e with | Event.handler _ _ => true | _ => false)

/-- The request was rejected: `fail(w)` is among the events. -/
def Outcome.rejected (o : Outcome) : Bool := o.events.contains Event.fail

/-- The arguments of the calls `p.Find(u)`, in order. -/
def Outcome.findCalls (o : Outcome) : List Bytes :=
  o.events.filterMap (fun e => match e with | Event.find u => some u | _ => none)

/-- The number of calls `h(w, r)`. -/
def Outcome.handlerCalls (o : Outcome) : Nat :=
  o.events.countP (fun e => match e with | Event.handler _ _ => true | _ => false)

/-- A `Provider` whose `Find` may read and change a state of its own (a database, a
cache, a counter): the state before the call and the argument give the result and
the state after the call. -/
structure StatefulProvider (σ : Type) where
  Find : σ → Bytes → (Credentials × Option Bytes) × σ

/-- An `http.HandlerFunc` with a state of its own. -/
abbrev StatefulHandlerFunc (τ : Type) := τ → ResponseWriter → Request → ResponseWriter × τ

/-- The result of one call of the wrapped handler with stateful collaborators: the
outcome and the collaborators' states afterwards. -/
structure Served (σ τ : Type) where
  outcome : Outcome
  provider : σ
  handler : τ

/-- The source's `Protect(h, p)` applied to a writer and a request, for a provider and
an inner handler that carry state: `s` and `t` are their states when the request
arrives. The closure has no variable of its own to carry from one call to the next. -/
def ProtectStateful {σ τ : Type} (h : StatefulHandlerFunc τ) (p : StatefulProvider σ)
    (s : σ) (t : τ) (w : ResponseWriter) (r : Request) : Served σ τ :=
  let auth := r.Header.Get (lit "Authorization")
  if !HasPrefix auth basicPrefix then ⟨⟨fail w, [Event.fail]⟩, s, t⟩
  else
    match sliceFrom auth basicPrefix.length with
    | none => ⟨⟨w, [Event.panic]⟩, s, t⟩
    | some enc =>
      match DecodeString enc with
      | none => ⟨⟨fail w, [Event.fail]⟩, s, t⟩
      | some payload =>
        let pair := SplitN payload (lit ":") 2
        if pair.length ≠ 2 then ⟨⟨fail w, [Event.fail]⟩, s, t⟩
        else
          match pair[0]?, pair[1]? with
          | some user, some password =>
            let c := (p.Find s user).1.1
            let err := (p.Find s user).1.2
            if err.isSome || !Equal password c.Password then
              ⟨⟨fail w, [Event.find user, Event.fail]⟩, (p.Find s user).2, t⟩
            else
              ⟨⟨(h t w r).1, [Event.find user, Event.handler w r]⟩, (p.Find s user).2,
                (h t w r).2⟩
          | _, _ => ⟨⟨w, [Event.panic]⟩, s, t⟩

/-! ## The repository's tests (`basicauth_test.go`) -/

/-- The test file's `provider`: a map from user to password. -/
structure provider where
  u : List (Bytes × Bytes)

/-- The test file's `provider.Find`. -/
def provider.Find (p : provider) (u : Bytes) : Credentials × Option Bytes :=
  match p.u.lookup u with
  | some pw => (⟨u, pw⟩, none)
  | none => (⟨[], []⟩, some (lit "Can not find user " ++ u))

/-- The test provider as a `Provider`. -/
def provider.toProvider (p : provider) : Provider := ⟨p.Find⟩

/-- The test file's `const body = "Hello!"`. -/
def body : Bytes := lit "Hello!"

/-- The test file's handler `h`: `fmt.Fprintln(w, body)`. -/
def h : HandlerFunc := fun w _ => w.Write (body ++ lit "\n")

/-- The request of the tests: `http.NewRequest("GET", "", nil)` with the given
headers added. -/
def testRequest (hdr : Header) : Request := ⟨lit "GET", [], hdr, []⟩


/-- The test table's `users{}`. -/
def usersNone : provider := ⟨[]⟩

/-- The test table's `users{"foo": "bar"}`. -/
def usersFoo : provider := ⟨[(lit "foo", lit "bar")]⟩

/-- The test table's `users{"foo": "bar", "user": "password"}`. -/
def usersBoth : provider := ⟨[(lit "foo", lit "bar"), (lit "user", lit "password")]⟩

/-- A request of the tests with the single header `Authorization: auth`. -/
def authRequest (auth : Bytes) : Request := testRequest [(lit "Authorization", [auth])]

/-- The provider `p` with the `User` field of every result replaced by `name`; the
error and the `Password` field are those of `p`. -/
def withUser (p : Provider) (name : Bytes) : Provider :=
  ⟨fun u => (⟨name, (p.Find u).1.Password⟩, (p.Find u).2)⟩

/-- A provider that counts its calls and answers from the test table
`{"foo": "bar", "user": "password"}`. -/
def countingProvider : StatefulProvider Nat := ⟨fun n u => (usersBoth.Find u, n + 1)⟩

/-- The test handler `h`, counting its calls. -/
def countingHandler : StatefulHandlerFunc Nat := fun n w r => (h w r, n + 1)

/-! ## Bit arithmetic of a Base64 group -/

theorem lor_eq_add (i k b : Nat) (hb : b < 2 ^ i) : k * 2 ^ i ||| b = k * 2 ^ i + b := by
  rw [Nat.mul_comm]; exact (Nat.mul_add_lt_is_or hb k).symm

theorem pack_sextets (s0 s1 s2 s3 : Nat) (h1 : s1 < 64) (h2 : s2 < 64) (h3 : s3 < 64) :
    (s0 <<< 18) ||| (s1 <<< 12) ||| (s2 <<< 6) ||| s3
      = s0 * 262144 + s1 * 4096 + s2 * 64 + s3 := by
  simp only [Nat.shiftLeft_eq]
  have e1 : s0 * 2 ^ 18 ||| s1 * 2 ^ 12 = s0 * 2 ^ 18 + s1 * 2 ^ 12 :=
    lor_eq_add 18 s0 _ (by omega)
  have e2 : (s0 * 2 ^ 18 + s1 * 2 ^ 12) ||| s2 * 2 ^ 6
      = s0 * 2 ^ 18 + s1 * 2 ^ 12 + s2 * 2 ^ 6 := by
    have := lor_eq_add 12 (s0 * 64 + s1) (s2 * 2 ^ 6) (by omega)
    have e : (s0 * 64 + s1) * 2 ^ 12 = s0 * 2 ^ 18 + s1 * 2 ^ 12 := by omega
    rw [e] at this; exact this
  have e3 : (s0 * 2 ^ 18 + s1 * 2 ^ 12 + s2 * 2 ^ 6) ||| s3
      = s0 * 2 ^ 18 + s1 * 2 ^ 12 + s2 * 2 ^ 6 + s3 := by
    have := lor_eq_add 6 (s0 * 4096 + s1 * 64 + s2) s3 (by omega)
    have e : (s0 * 4096 + s1 * 64 + s2) * 2 ^ 6
        = s0 * 2 ^ 18 + s1 * 2 ^ 12 + s2 * 2 ^ 6 := by omega
    rw [e] at this; exact this
  rw [e1, e2, e3]; omega

theorem pack_bytes (a b c : Nat) (hb : b < 256) (hc : c < 256) :
    (a <<< 16) ||| (b <<< 8) ||| c = a * 65536 + b * 256 + c := by
  simp only [Nat.shiftLeft_eq]
  have e1 : a * 2 ^ 16 ||| b * 2 ^ 8 = a * 2 ^ 16 + b * 2 ^ 8 :=
    lor_eq_add 16 a _ (by omega)
  have e2 : (a * 2 ^ 16 + b * 2 ^ 8) ||| c = a * 2 ^ 16 + b * 2 ^ 8 + c := by
    have := lor_eq_add 8 (a * 256 + b) c (by omega)
    have e : (a * 256 + b) * 2 ^ 8 = a * 2 ^ 16 + b * 2 ^ 8 := by omega
    rw [e] at this; exact this
  rw [e1, e2]; omega

theorem and_63 (x : Nat) : x &&& 0x3F = x % 64 := Nat.and_pow_two_sub_one_eq_mod x 6

theorem byte_eq (n : Nat) (b : Byte) (h : n % 256 = b.val) : byte n = b := by
  apply Fin.ext
  simpa [byte, Fin.ofNat] using h

/-- The sextets of three bytes assemble back to the three bytes. -/
theorem assemble_full (a b c : Byte) :
    assemble
      [(a.val <<< 16 ||| b.val <<< 8 ||| c.val) >>> 18 &&& 0x3F,
       (a.val <<< 16 ||| b.val <<< 8 ||| c.val) >>> 12 &&& 0x3F,
       (a.val <<< 16 ||| b.val <<< 8 ||| c.val) >>> 6 &&& 0x3F,
       (a.val <<< 16 ||| b.val <<< 8 ||| c.val) &&& 0x3F] 4 = [a, b, c] := by
  have ha := a.isLt
  have hb := b.isLt
  have hc := c.isLt
  simp only [assemble, List.getD_cons_zero, List.getD_cons_succ, and_63,
    Nat.shiftRight_eq_div_pow, pack_bytes a.val b.val c.val hb hc]
  rw [pack_sextets _ _ _ _ (Nat.mod_lt _ (by decide)) (Nat.mod_lt _ (by decide))
    (Nat.mod_lt _ (by decide))]
  simp only [List.take, Nat.reduceSub, Nat.reducePow, Nat.div_one]
  refine congrArg₂ _ (byte_eq _ _ (by omega)) (congrArg₂ _ (byte_eq _ _ (by omega))
    (congrArg₂ _ (byte_eq _ _ (by omega)) rfl))

/-- The sextets of a final group of two bytes assemble back to the two bytes. -/
theorem assemble_two (a b : Byte) :
    assemble
      [(a.val <<< 16 ||| b.val <<< 8) >>> 18 &&& 0x3F,
       (a.val <<< 16 ||| b.val <<< 8) >>> 12 &&& 0x3F,
       (a.val <<< 16 ||| b.val <<< 8) >>> 6 &&& 0x3F] 3 = [a, b] := by
  have ha := a.isLt
  have hb := b.isLt
  have e : a.val <<< 16 ||| b.val <<< 8 = a.val * 65536 + b.val * 256 := by
    have := pack_bytes a.val b.val 0 hb (by decide)
    simpa using this
  simp only [assemble, List.getD_cons_zero, List.getD_cons_succ, List.getD_nil, and_63,
    Nat.shiftRight_eq_div_pow, e]
  have p := pack_sextets ((a.val * 65536 + b.val * 256) / 2 ^ 18 % 64)
    ((a.val * 65536 + b.val * 256) / 2 ^ 12 % 64) ((a.val * 65536 + b.val * 256) / 2 ^ 6 % 64) 0
    (Nat.mod_lt _ (by decide)) (Nat.mod_lt _ (by decide)) (by decide)
  simp only [Nat.or_zero] at p ⊢
  rw [p]
  simp only [List.take, Nat.reduceSub, Nat.reducePow]
  refine congrArg₂ _ (byte_eq _ _ (by omega)) (congrArg₂ _ (byte_eq _ _ (by omega)) rfl)

/-- The sextets of a final group of one byte assemble back to the byte. -/
theorem assemble_one (a : Byte) :
    assemble [(a.val <<< 16) >>> 18 &&& 0x3F, (a.val <<< 16) >>> 12 &&& 0x3F] 2 = [a] := by
  have ha := a.isLt
  simp only [assemble, List.getD_cons_zero, List.getD_cons_succ, List.getD_nil, and_63,
    Nat.shiftRight_eq_div_pow, Nat.shiftLeft_eq]
  have p := pack_sextets ((a.val * 2 ^ 16) / 2 ^ 18 % 64) ((a.val * 2 ^ 16) / 2 ^ 12 % 64) 0 0
    (Nat.mod_lt _ (by decide)) (by decide) (by decide)
  simp only [Nat.or_zero, Nat.shiftLeft_eq, Nat.zero_mul] at p ⊢
  rw [p]
  simp only [List.take, Nat.reduceSub, Nat.reducePow]
  refine congrArg₂ _ (byte_eq _ _ (by omega)) rfl

/-! ## The alphabet -/

set_option maxRecDepth 100000 in
/-- Facts about every byte with respect to the alphabet. -/
theorem byte_facts : ∀ c : Byte,
    ((decodeMap c ≠ 0xFF) ↔ inAlphabet c = true) ∧
    (inAlphabet c = true →
      isNewline c = false ∧ c ≠ padChar ∧ decodeMap c < 64 ∧ encode (decodeMap c) = c) ∧
    (isNewline c = true → c ≠ padChar) := by
  decide

set_option maxRecDepth 100000 in
/-- The decoding table inverts the encoding table. -/
theorem sextet_facts : ∀ i : Fin 64,
    decodeMap (encode i.val) = i.val ∧ inAlphabet (encode i.val) = true := by
  decide

theorem decodeMap_encode (i : Nat) (h : i < 64) : decodeMap (encode i) = i :=
  (sextet_facts ⟨i, h⟩).1

theorem inAlphabet_encode (i : Nat) (h : i < 64) : inAlphabet (encode i) = true :=
  (sextet_facts ⟨i, h⟩).2

theorem and_63_lt (x : Nat) : x &&& 0x3F < 64 := by
  rw [and_63]; exact Nat.mod_lt _ (by decide)

theorem inAlphabet_padChar : inAlphabet padChar = false := by decide

/-! ## Encoding then decoding group by group -/

theorem decodeQuanta_EncodeToString : ∀ x : Bytes, decodeQuanta (EncodeToString x) = some x
  | [] => by simp [EncodeToString, decodeQuanta]
  | [a] => by
    simp only [EncodeToString, decodeQuanta, inAlphabet_encode _ (and_63_lt _),
      decodeMap_encode _ (and_63_lt _), inAlphabet_padChar, assemble_one]
    simp
  | [a, b] => by
    simp only [EncodeToString, decodeQuanta, inAlphabet_encode _ (and_63_lt _),
      decodeMap_encode _ (and_63_lt _), inAlphabet_padChar, assemble_two]
    simp
  | a :: b :: c :: rest => by
    have ih := decodeQuanta_EncodeToString rest
    simp only [EncodeToString, decodeQuanta, inAlphabet_encode _ (and_63_lt _),
      decodeMap_encode _ (and_63_lt _), assemble_full, ih]
    simp

theorem inAlphabet_not_newline {c : Byte} (h : inAlphabet c = true) : isNewline c = false :=
  ((byte_facts c).2.1 h).1

/-- The encoder's output has no newline. -/
theorem stripNewlines_EncodeToString : ∀ x : Bytes,
    stripNewlines (EncodeToString x) = EncodeToString x
  | [] => by simp [EncodeToString, stripNewlines]
  | [a] => by
    simp [EncodeToString, stripNewlines, inAlphabet_not_newline (inAlphabet_encode _ (and_63_lt _))]
    decide
  | [a, b] => by
    simp [EncodeToString, stripNewlines, inAlphabet_not_newline (inAlphabet_encode _ (and_63_lt _))]
    decide
  | a :: b :: c :: rest => by
    have ih := stripNewlines_EncodeToString rest
    simp only [stripNewlines] at ih
    simp [EncodeToString, stripNewlines, ih,
      inAlphabet_not_newline (inAlphabet_encode _ (and_63_lt _))]

/-! ## The decoder against the group-by-group reference -/

theorem skipNewlines_nil_iff : ∀ s : Bytes, skipNewlines s = [] ↔ stripNewlines s = []
  | [] => by simp [skipNewlines, stripNewlines]
  | c :: s => by
    have ih := skipNewlines_nil_iff s
    simp only [stripNewlines] at ih
    by_cases hc : isNewline c = true
    · simp [skipNewlines, stripNewlines, hc, List.filter_cons, ih]
    · simp [skipNewlines, stripNewlines, hc, List.filter_cons]

theorem skipNewlines_cons : ∀ (s : Bytes) (c : Byte) (t : Bytes), skipNewlines s = c :: t →
    isNewline c = false ∧ stripNewlines s = c :: stripNewlines t
  | [], c, t, h => by simp [skipNewlines] at h
  | a :: s, c, t, h => by
    by_cases ha : isNewline a = true
    · have h2 : skipNewlines s = c :: t := by simpa [skipNewlines, ha] using h
      have ih := skipNewlines_cons s c t h2
      refine ⟨ih.1, ?_⟩
      have := ih.2
      simp only [stripNewlines] at this ⊢
      simp [List.filter_cons, ha, this]
    · have h2 : a = c ∧ s = t := by simpa [skipNewlines, ha] using h
      obtain ⟨rfl, rfl⟩ := h2
      simp only [Bool.not_eq_true] at ha
      exact ⟨ha, by simp [stripNewlines, List.filter_cons, ha]⟩

theorem stripNewlines_cons_newline (c : Byte) (s : Bytes) (h : isNewline c = true) :
    stripNewlines (c :: s) = stripNewlines s := by
  simp [stripNewlines, List.filter_cons, h]

theorem stripNewlines_cons_other (c : Byte) (s : Bytes) (h : isNewline c = false) :
    stripNewlines (c :: s) = c :: stripNewlines s := by
  simp [stripNewlines, List.filter_cons, h]

theorem Decode_succ (fuel : Nat) (s acc : Bytes) :
    Decode (fuel + 1) s acc = afterQuantum fuel s [] acc := by
  cases s with
  | nil => simp [Decode, afterQuantum, decodeQuantum]
  | cons c src => simp [Decode, afterQuantum]

theorem afterQuantum_full (fuel : Nat) (s : Bytes) (dbuf : List Nat) (acc : Bytes)
    (h : dbuf.length = 4) :
    afterQuantum fuel s dbuf acc = Decode fuel s (acc ++ assemble dbuf 4) := by
  cases s <;> simp [afterQuantum, decodeQuantum, h]

theorem afterQuantum_alpha (fuel : Nat) (c : Byte) (src : Bytes) (dbuf : List Nat) (acc : Bytes)
    (hA : inAlphabet c = true) (hlen : dbuf.length < 4) :
    afterQuantum fuel (c :: src) dbuf acc = afterQuantum fuel src (dbuf ++ [decodeMap c]) acc := by
  have h1 : decodeMap c ≠ 0xFF := (byte_facts c).1.2 hA
  have h2 : ¬ 4 ≤ dbuf.length := by omega
  simp only [afterQuantum, decodeQuantum, h2, if_false, h1, ne_eq, not_false_eq_true, if_true]

theorem afterQuantum_newline (fuel : Nat) (c : Byte) (src : Bytes) (dbuf : List Nat)
    (acc : Bytes) (hA : inAlphabet c = false) (hN : isNewline c = true)
    (hlen : dbuf.length < 4) :
    afterQuantum fuel (c :: src) dbuf acc = afterQuantum fuel src dbuf acc := by
  have h1 : ¬ decodeMap c ≠ 0xFF := by
    intro h; have := (byte_facts c).1.1 h; simp [hA] at this
  have h2 : ¬ 4 ≤ dbuf.length := by omega
  simp only [afterQuantum, decodeQuantum, h2, if_false, h1, hN, if_true]

/-- A group with a byte that is neither in the alphabet nor padding does not decode. -/
theorem decodeQuanta_bad (c : Byte) (hA : inAlphabet c = false) (hP : c ≠ padChar)
    (pre : Bytes) (hpre : pre.length < 4) (t : Bytes) :
    decodeQuanta (pre ++ c :: t) = none := by
  have hP2 : (c == padChar) = false := by simpa using hP
  rcases pre with _ | ⟨p0, _ | ⟨p1, _ | ⟨p2, _ | ⟨p3, pre⟩⟩⟩⟩
  · rcases t with _ | ⟨x, _ | ⟨y, _ | ⟨z, t⟩⟩⟩ <;> simp [decodeQuanta, hA]
  · rcases t with _ | ⟨x, _ | ⟨y, t⟩⟩ <;> simp [decodeQuanta, hA]
  · rcases t with _ | ⟨x, t⟩ <;> simp [decodeQuanta, hA, hP2]
  · simp [decodeQuanta, hA, hP2]
  · simp at hpre; omega

theorem afterQuantum_eq : ∀ (s : Bytes) (dbuf : List Nat) (acc : Bytes) (fuel : Nat),
    dbuf.length < 4 → (∀ d ∈ dbuf, d < 64) → s.length ≤ fuel + 1 →
    afterQuantum fuel s dbuf acc
      = (decodeQuanta (dbuf.map encode ++ stripNewlines s)).map (fun t => acc ++ t) := by
  intro s
  induction s with
  | nil =>
    intro dbuf acc fuel hlen _ _
    rcases dbuf with _ | ⟨d0, _ | ⟨d1, _ | ⟨d2, _ | ⟨d3, dbuf⟩⟩⟩⟩
    · simp [afterQuantum, decodeQuantum, decodeQuanta, stripNewlines, Decode]
    · simp [afterQuantum, decodeQuantum, decodeQuanta, stripNewlines]
    · simp [afterQuantum, decodeQuantum, decodeQuanta, stripNewlines]
    · simp [afterQuantum, decodeQuantum, decodeQuanta, stripNewlines]
    · simp at hlen; omega
  | cons c src ih =>
    intro dbuf acc fuel hlen hd hfuel
    by_cases hA : inAlphabet c = true
    · -- a character of the alphabet
      obtain ⟨hN, _, hlt, henc⟩ := (byte_facts c).2.1 hA
      rw [afterQuantum_alpha fuel c src dbuf acc hA hlen, stripNewlines_cons_other c src hN]
      by_cases h3 : dbuf.length < 3
      · rw [ih (dbuf ++ [decodeMap c]) acc fuel (by simp; omega)
          (by intro d hdm
              rcases List.mem_append.1 hdm with h | h
              · exact hd d h
              · simp at h; omega)
          (by simp at hfuel; omega)]
        simp [henc]
      · -- the group is complete
        have hD : ∀ acc2 : Bytes, Decode fuel src acc2
            = (decodeQuanta (stripNewlines src)).map (fun t => acc2 ++ t) := by
          intro acc2
          cases fuel with
          | zero =>
            have : src = [] := by simpa using hfuel
            subst this
            simp [Decode, decodeQuanta, stripNewlines]
          | succ f =>
            rw [Decode_succ, ih [] acc2 f (by simp) (by simp) (by simpa using hfuel)]
            simp
        rw [afterQuantum_full _ _ _ _ (by simp; omega), hD]
        rcases dbuf with _ | ⟨d0, _ | ⟨d1, _ | ⟨d2, _ | ⟨d3, dbuf⟩⟩⟩⟩
        · simp at h3
        · simp at h3
        · simp at h3
        · have h0 := hd d0 (by simp)
          have h1 := hd d1 (by simp)
          have h2 := hd d2 (by simp)
          simp [decodeQuanta, inAlphabet_encode, decodeMap_encode, h0, h1, h2, hA,
            Option.map_map, Function.comp_def]
        · simp at hlen; omega
    · simp only [Bool.not_eq_true] at hA
      by_cases hN : isNewline c = true
      · rw [afterQuantum_newline fuel c src dbuf acc hA hN hlen,
          stripNewlines_cons_newline c src hN]
        exact ih dbuf acc fuel hlen hd (by simp at hfuel; omega)
      · simp only [Bool.not_eq_true] at hN
        have h1 : ¬ decodeMap c ≠ 0xFF := by
          intro h; have := (byte_facts c).1.1 h; simp [hA] at this
        have h4 : ¬ 4 ≤ dbuf.length := by omega
        rw [stripNewlines_cons_other c src hN]
        by_cases hP : c = padChar
        · subst hP
          rcases dbuf with _ | ⟨d0, _ | ⟨d1, _ | ⟨d2, _ | ⟨d3, dbuf⟩⟩⟩⟩
          · generalize stripNewlines src = t
            rcases t with _ | ⟨x, _ | ⟨y, _ | ⟨z, t⟩⟩⟩ <;>
              simp [afterQuantum, decodeQuantum, decodeQuanta, h1, hN, hA]
          · generalize stripNewlines src = t
            rcases t with _ | ⟨x, _ | ⟨y, t⟩⟩ <;>
              simp [afterQuantum, decodeQuantum, decodeQuanta, h1, hN, hA]
          · have h0 := hd d0 (by simp)
            have h1' := hd d1 (by simp)
            cases hs : skipNewlines src with
            | nil =>
              have := (skipNewlines_nil_iff src).1 hs
              simp [afterQuantum, decodeQuantum, decodeQuanta, h1, hN, hs, this]
            | cons c2 src2 =>
              obtain ⟨hN2, hst⟩ := skipNewlines_cons src c2 src2 hs
              by_cases hP2 : c2 = padChar
              · subst hP2
                by_cases he : skipNewlines src2 = []
                · have := (skipNewlines_nil_iff src2).1 he
                  simp [afterQuantum, decodeQuantum, decodeQuanta, h1, hN, hs, hst, he, this,
                    inAlphabet_encode, decodeMap_encode, h0, h1', hA, Decode]
                · have : stripNewlines src2 ≠ [] := fun h => he ((skipNewlines_nil_iff src2).2 h)
                  simp [afterQuantum, decodeQuantum, decodeQuanta, h1, hN, hs, hst, he, this,
                    inAlphabet_encode, decodeMap_encode, h0, h1', hA]
              · have hP3 : (c2 == padChar) = false := by simpa using hP2
                simp [afterQuantum, decodeQuantum, decodeQuanta, h1, hN, hs, hst, hP2, hP3,
                  inAlphabet_encode, decodeMap_encode, h0, h1', hA]
          · have h0 := hd d0 (by simp)
            have h1' := hd d1 (by simp)
            have h2 := hd d2 (by simp)
            by_cases he : skipNewlines src = []
            · have := (skipNewlines_nil_iff src).1 he
              simp [afterQuantum, decodeQuantum, decodeQuanta, h1, hN, he, this,
                inAlphabet_encode, decodeMap_encode, h0, h1', h2, hA, Decode]
            · have : stripNewlines src ≠ [] := fun h => he ((skipNewlines_nil_iff src).2 h)
              simp [afterQuantum, decodeQuantum, decodeQuanta, h1, hN, he, this,
                inAlphabet_encode, decodeMap_encode, h0, h1', h2, hA]
          · simp at hlen; omega
        · rw [decodeQuanta_bad c hA hP _ (by simpa using hlen)]
          simp [afterQuantum, decodeQuantum, h4, h1, hN, hP]

/-- Go's decoder ignores newlines and otherwise decodes group by group. -/
theorem DecodeString_eq (s : Bytes) : DecodeString s = decodeQuanta (stripNewlines s) := by
  cases s with
  | nil => simp [DecodeString, Decode, decodeQuanta, stripNewlines]
  | cons c src =>
    have h := afterQuantum_eq (c :: src) [] [] src.length (by simp) (by simp) (by simp)
    simp only [DecodeString, List.length_cons, Decode_succ, h]
    simp

/-- More fuel than the input's length changes nothing: `Decode` never runs out. -/
theorem Decode_fuel (fuel : Nat) (s acc : Bytes) (h : s.length ≤ fuel) :
    Decode fuel s acc = Decode s.length s acc := by
  cases s with
  | nil => simp [Decode]
  | cons c src =>
    obtain ⟨f, rfl⟩ : ∃ f, fuel = f + 1 := ⟨fuel - 1, by simp at h; omega⟩
    simp only [List.length_cons, Decode_succ]
    rw [afterQuantum_eq (c :: src) [] acc f (by simp) (by simp) (by simpa using h),
      afterQuantum_eq (c :: src) [] acc src.length (by simp) (by simp) (by simp)]

theorem validStd_eq : ∀ t : Bytes, validStd t = (decodeQuanta t).isSome
  | [] => by simp [validStd, decodeQuanta]
  | [_] => by simp [validStd, decodeQuanta]
  | [_, _] => by simp [validStd, decodeQuanta]
  | [_, _, _] => by simp [validStd, decodeQuanta]
  | a :: b :: c :: d :: rest => by
    have ih := validStd_eq rest
    have hdp : inAlphabet d = true → (d == padChar) = false := fun h => by
      simpa using ((byte_facts d).2.1 h).2.1
    simp only [validStd, decodeQuanta, ih]
    cases inAlphabet a <;> cases inAlphabet b <;> cases hc : inAlphabet c <;>
      cases hd : inAlphabet d <;> cases rest.isEmpty <;> cases hp : (d == padChar) <;>
      cases hq : (c == padChar) <;> simp_all


/-! ## Prefix, slicing and splitting -/

/-- The byte `':'`. -/
theorem lit_colon : lit ":" = [(58 : Byte)] := by decide

theorem HasPrefix_iff (s pre : Bytes) : HasPrefix s pre = true ↔ pre <+: s := by
  simp only [HasPrefix, Bool.and_eq_true, decide_eq_true_eq, beq_iff_eq]
  constructor
  · rintro ⟨_, h⟩
    exact h ▸ List.take_prefix _ _
  · intro h
    exact ⟨h.length_le, List.prefix_iff_eq_take.1 h |>.symm⟩

theorem HasPrefix_append (pre s : Bytes) : HasPrefix (pre ++ s) pre = true :=
  (HasPrefix_iff _ _).2 (List.prefix_append pre s)

theorem sliceFrom_append (pre s : Bytes) : sliceFrom (pre ++ s) pre.length = some s := by
  simp [sliceFrom]

/-- When `strings.HasPrefix(s, pre)` holds, the slice `s[len(pre):]` is in range. -/
theorem sliceFrom_of_HasPrefix (s pre : Bytes) (h : HasPrefix s pre = true) :
    sliceFrom s pre.length = some (s.drop pre.length) := by
  have := ((HasPrefix_iff s pre).1 h).length_le
  simp [sliceFrom, this]

theorem Index_byte_none (c : Byte) : ∀ s : Bytes, c ∉ s → Index s [c] = none
  | [], _ => by simp [Index]
  | a :: s, h => by
    have ha : ¬ a = c := fun e => h (by simp [e])
    have hs : c ∉ s := fun e => h (by simp [e])
    simp [Index, HasPrefix, ha, Index_byte_none c s hs]

theorem Index_byte_some (c : Byte) : ∀ (u pw : Bytes), c ∉ u →
    Index (u ++ c :: pw) [c] = some u.length
  | [], pw, _ => by simp [Index, HasPrefix]
  | a :: u, pw, h => by
    have ha : ¬ a = c := fun e => h (by simp [e])
    have hs : c ∉ u := fun e => h (by simp [e])
    simp [Index, HasPrefix, ha, Index_byte_some c u pw hs]

/-- Without the separator, `SplitN(s, sep, 2)` has the single part `s`. -/
theorem SplitN_no_sep (c : Byte) (s : Bytes) (h : c ∉ s) : SplitN s [c] 2 = [s] := by
  cases s with
  | nil => simp [SplitN, genSplitLoop]
  | cons a t =>
    have e : min 2 ((a :: t).length + 1) - 1 = 1 := by simp
    simp only [SplitN, e, genSplitLoop, Index_byte_none c _ h]
    simp

/-- With a separator, `SplitN(s, sep, 2)` cuts at its first occurrence only. -/
theorem SplitN_first_sep (c : Byte) (u pw : Bytes) (h : c ∉ u) :
    SplitN (u ++ c :: pw) [c] 2 = [u, pw] := by
  have e : min 2 ((u ++ c :: pw).length + 1) - 1 = 1 := by simp; omega
  simp only [SplitN, e, genSplitLoop, Index_byte_some c u pw h]
  simp

/-- A byte sequence containing `c` splits at the first `c`. -/
theorem exists_first (c : Byte) : ∀ s : Bytes, c ∈ s → ∃ u pw, s = u ++ c :: pw ∧ c ∉ u
  | [], h => by simp at h
  | a :: s, h => by
    by_cases ha : a = c
    · exact ⟨[], s, by simp [ha], by simp⟩
    · have hs : c ∈ s := by
        rcases List.mem_cons.1 h with e | e
        · exact absurd e.symm ha
        · exact e
      obtain ⟨u, pw, e, hu⟩ := exists_first c s hs
      refine ⟨a :: u, pw, by simp [e], ?_⟩
      intro hm
      rcases List.mem_cons.1 hm with e2 | e2
      · exact ha e2.symm
      · exact hu e2

/-! ## The branches of `Protect` -/

theorem Protect_no_scheme (h : HandlerFunc) (p : Provider) (w : ResponseWriter) (r : Request)
    (hp : HasPrefix (r.Header.Get (lit "Authorization")) basicPrefix = false) :
    Protect h p w r = ⟨fail w, [Event.fail]⟩ := by
  simp [Protect, hp]

theorem Protect_no_decode (h : HandlerFunc) (p : Provider) (w : ResponseWriter) (r : Request)
    (enc : Bytes) (hauth : r.Header.Get (lit "Authorization") = basicPrefix ++ enc)
    (hdec : DecodeString enc = none) :
    Protect h p w r = ⟨fail w, [Event.fail]⟩ := by
  simp [Protect, hauth, HasPrefix_append, sliceFrom_append, hdec]

theorem Protect_one_part (h : HandlerFunc) (p : Provider) (w : ResponseWriter) (r : Request)
    (enc payload : Bytes) (hauth : r.Header.Get (lit "Authorization") = basicPrefix ++ enc)
    (hdec : DecodeString enc = some payload) (hno : (58 : Byte) ∉ payload) :
    Protect h p w r = ⟨fail w, [Event.fail]⟩ := by
  simp [Protect, hauth, HasPrefix_append, sliceFrom_append, hdec, lit_colon,
    SplitN_no_sep 58 payload hno]

theorem Protect_two_parts (h : HandlerFunc) (p : Provider) (w : ResponseWriter) (r : Request)
    (enc user password : Bytes)
    (hauth : r.Header.Get (lit "Authorization") = basicPrefix ++ enc)
    (hdec : DecodeString enc = some (user ++ 58 :: password)) (hu : (58 : Byte) ∉ user) :
    Protect h p w r =
      if (p.Find user).2.isSome || !Equal password (p.Find user).1.Password then
        ⟨fail w, [Event.find user, Event.fail]⟩
      else ⟨h w r, [Event.find user, Event.handler w r]⟩ := by
  simp [Protect, hauth, HasPrefix_append, sliceFrom_append, hdec, lit_colon,
    SplitN_first_sep 58 user password hu]

/-- Every run of the handler ends in one of three ways; none of them is a panic. -/
theorem Protect_outcome (h : HandlerFunc) (p : Provider) (w : ResponseWriter) (r : Request) :
    Protect h p w r = ⟨fail w, [Event.fail]⟩ ∨
    (∃ user, Protect h p w r = ⟨fail w, [Event.find user, Event.fail]⟩) ∨
    (∃ user, Protect h p w r = ⟨h w r, [Event.find user, Event.handler w r]⟩) := by
  by_cases hp : HasPrefix (r.Header.Get (lit "Authorization")) basicPrefix = true
  · obtain ⟨enc, hauth⟩ := (HasPrefix_iff _ _).1 hp
    have hauth := hauth.symm
    cases hdec : DecodeString enc with
    | none => exact Or.inl (Protect_no_decode h p w r enc hauth hdec)
    | some payload =>
      by_cases hc : (58 : Byte) ∈ payload
      · obtain ⟨user, password, rfl, hu⟩ := exists_first 58 payload hc
        rw [Protect_two_parts h p w r enc user password hauth hdec hu]
        by_cases hb : ((p.Find user).2.isSome || !Equal password (p.Find user).1.Password) = true
        · exact Or.inr (Or.inl ⟨user, by simp only [hb, if_true]⟩)
        · exact Or.inr (Or.inr ⟨user, by simp only [hb, if_false]; simp⟩)
      · exact Or.inl (Protect_one_part h p w r enc payload hauth hdec hc)
  · exact Or.inl (Protect_no_scheme h p w r (by simpa using hp))

/-! ## The response written by `fail` -/

namespace Header

theorem Get_Set_same (hm : Header) (k v : Bytes) : (hm.Set k v).Get k = v := by
  simp [Get, Set, List.lookup]

theorem lookup_filter_ne (hm : Header) (k k2 : Bytes) (hk : k ≠ k2) :
    (hm.filter (fun e => e.1 != k2)).lookup k = hm.lookup k := by
  induction hm with
  | nil => rfl
  | cons e t ih =>
    by_cases he : e.1 = k2
    · have hke : (k == k2) = false := by simpa using hk
      obtain ⟨e1, e2⟩ := e
      simp only at he
      subst he
      simp [List.filter_cons, List.lookup, hke, ih]
    · have : (e.1 != k2) = true := by simpa using he
      simp only [List.filter_cons, this, if_true, List.lookup]
      cases hke : (k == e.1) <;> simp [ih]

theorem Get_Set_other (hm : Header) (k k2 v : Bytes)
    (hk : CanonicalMIMEHeaderKey k ≠ CanonicalMIMEHeaderKey k2) :
    (hm.Set k2 v).Get k = hm.Get k := by
  have hb : (CanonicalMIMEHeaderKey k == CanonicalMIMEHeaderKey k2) = false := by
    simpa using hk
  simp only [Get, Set, List.lookup, hb, lookup_filter_ne hm _ _ hk]

theorem Get_Del_other (hm : Header) (k k2 : Bytes)
    (hk : CanonicalMIMEHeaderKey k ≠ CanonicalMIMEHeaderKey k2) :
    (hm.Del k2).Get k = hm.Get k := by
  simp only [Get, Del, lookup_filter_ne hm _ _ hk]

end Header

/-- The challenge header's value, `Basic realm="Restricted"`. -/
theorem challenge_value :
    lit "Basic realm=\"" ++ realm ++ lit "\"" = lit "Basic realm=\"Restricted\"" := by
  decide

theorem www_ne_content_length :
    CanonicalMIMEHeaderKey (lit "WWW-Authenticate") ≠
      CanonicalMIMEHeaderKey (lit "Content-Length") := by decide

theorem www_ne_content_type :
    CanonicalMIMEHeaderKey (lit "WWW-Authenticate") ≠
      CanonicalMIMEHeaderKey (lit "Content-Type") := by decide

theorem www_ne_nosniff :
    CanonicalMIMEHeaderKey (lit "WWW-Authenticate") ≠
      CanonicalMIMEHeaderKey (lit "X-Content-Type-Options") := by decide

/-- After `fail`, the WWW-Authenticate header is the challenge, whatever the writer's
state was. -/
theorem fail_challenge (w : ResponseWriter) :
    (fail w).HeaderMap.Get (lit "WWW-Authenticate") = lit "Basic realm=\"Restricted\"" := by
  have e : (fail w).HeaderMap =
      (((w.HeaderMap.Set (lit "WWW-Authenticate") (lit "Basic realm=\"Restricted\"")).Del
        (lit "Content-Length")).Set (lit "Content-Type") (lit "text/plain; charset=utf-8")).Set
        (lit "X-Content-Type-Options") (lit "nosniff") := by
    simp only [fail, Error, challenge_value, ResponseWriter.Write, ResponseWriter.WriteHeader,
      ResponseWriter.SetHeader, ResponseWriter.DelHeader]
    cases w.wroteHeader <;> simp
  rw [e, Header.Get_Set_other _ _ _ _ www_ne_nosniff,
    Header.Get_Set_other _ _ _ _ www_ne_content_type,
    Header.Get_Del_other _ _ _ www_ne_content_length, Header.Get_Set_same]

/-- After `fail` on a writer whose header has not been written, the status is 401. -/
theorem fail_Code (w : ResponseWriter) (hw : w.wroteHeader = false) : (fail w).Code = 401 := by
  simp [fail, Error, ResponseWriter.Write, ResponseWriter.WriteHeader,
    ResponseWriter.SetHeader, ResponseWriter.DelHeader, hw, StatusUnauthorized]

/-- After `fail` on a writer whose header has been written, the status is unchanged. -/
theorem fail_Code_written (w : ResponseWriter) (hw : w.wroteHeader = true) :
    (fail w).Code = w.Code := by
  simp [fail, Error, ResponseWriter.Write, ResponseWriter.WriteHeader,
    ResponseWriter.SetHeader, ResponseWriter.DelHeader, hw]

theorem StatusText_unauthorized : StatusText StatusUnauthorized = lit "Unauthorized" := by
  decide

/-- The body written by `fail`: the reason phrase and a newline, after what the body held. -/
theorem fail_Body (w : ResponseWriter) : (fail w).Body = w.Body ++ lit "Unauthorized\n" := by
  have e : lit "Unauthorized" ++ lit "\n" = lit "Unauthorized\n" := by decide
  simp only [fail, Error, StatusText_unauthorized, ResponseWriter.Write,
    ResponseWriter.WriteHeader, ResponseWriter.SetHeader, ResponseWriter.DelHeader, e]
  cases w.wroteHeader <;> simp

theorem rejected_iff (h : HandlerFunc) (p : Provider) (w : ResponseWriter) (r : Request) :
    (Protect h p w r).rejected = true ↔ (Protect h p w r).accepted = false := by
  rcases Protect_outcome h p w r with e | ⟨u, e⟩ | ⟨u, e⟩ <;>
    simp [e, Outcome.rejected, Outcome.accepted]

theorem rejected_w (h : HandlerFunc) (p : Provider) (w : ResponseWriter) (r : Request)
    (hr : (Protect h p w r).rejected = true) : (Protect h p w r).w = fail w := by
  rcases Protect_outcome h p w r with e | ⟨u, e⟩ | ⟨u, e⟩
  · simp [e]
  · simp [e]
  · simp [e, Outcome.rejected] at hr

theorem accepted_w (h : HandlerFunc) (p : Provider) (w : ResponseWriter) (r : Request)
    (ha : (Protect h p w r).accepted = true) : (Protect h p w r).w = h w r := by
  rcases Protect_outcome h p w r with e | ⟨u, e⟩ | ⟨u, e⟩
  · simp [e, Outcome.accepted] at ha
  · simp [e, Outcome.accepted] at ha
  · simp [e]

/-! ## Properties of `Protect` -/

/-- C1. Round trip: if the user has no `':'` byte and `Find(user)` returns, without
error, credentials whose password is `password`, then the header `"Basic "` followed
by the standard padded Base64 encoding of `user ++ ":" ++ password` is authenticated:
the inner handler is invoked, on the original writer and request. -/
theorem Protect_round_trip (h : HandlerFunc) (p : Provider) (w : ResponseWriter) (r : Request)
    (user password : Bytes) (hu : (58 : Byte) ∉ user)
    (hfind : (p.Find user).2 = none) (hpw : (p.Find user).1.Password = password)
    (hauth : r.Header.Get (lit "Authorization")
      = basicPrefix ++ EncodeToString (user ++ lit ":" ++ password)) :
    (Protect h p w r).accepted = true ∧
      Protect h p w r = ⟨h w r, [Event.find user, Event.handler w r]⟩ := by
  have hdec : DecodeString (EncodeToString (user ++ lit ":" ++ password))
      = some (user ++ 58 :: password) := by
    rw [DecodeString_eq, stripNewlines_EncodeToString, decodeQuanta_EncodeToString]
    simp [lit_colon]
  have e := Protect_two_parts h p w r _ user password hauth hdec hu
  simp only [hfind, hpw, Equal, Option.isSome_none, beq_self_eq_true, Bool.not_true,
    Bool.or_self, Bool.false_eq_true, if_false] at e
  exact ⟨by simp [e, Outcome.accepted], e⟩

/-- C1, on the fourth test case: `user:password` against
`{"foo": "bar", "user": "password"}` reaches the handler, with status 200 and the
body `Hello!` and a newline. -/
theorem Protect_round_trip_witness :
    ((58 : Byte) ∉ lit "user") ∧
    ((Protect h usersBoth.toProvider NewRecorder
        (authRequest (basicPrefix ++ EncodeToString (lit "user" ++ lit ":" ++ lit "password")))
      ).accepted = true ∧
      Protect h usersBoth.toProvider NewRecorder
        (authRequest (basicPrefix ++ EncodeToString (lit "user" ++ lit ":" ++ lit "password")))
      = ⟨h NewRecorder
          (authRequest (basicPrefix ++ EncodeToString (lit "user" ++ lit ":" ++ lit "password"))),
        [Event.find (lit "user"), Event.handler NewRecorder
          (authRequest
            (basicPrefix ++ EncodeToString (lit "user" ++ lit ":" ++ lit "password")))]⟩) ∧
    (h NewRecorder
        (authRequest (basicPrefix ++ EncodeToString (lit "user" ++ lit ":" ++ lit "password")))
      ).Code = 200 ∧
    (h NewRecorder
        (authRequest (basicPrefix ++ EncodeToString (lit "user" ++ lit ":" ++ lit "password")))
      ).Body = lit "Hello!\n" :=
  ⟨by decide,
    Protect_round_trip h usersBoth.toProvider NewRecorder _ (lit "user") (lit "password")
      (by decide) (by decide) (by decide) (by decide),
    by decide, by decide⟩

/-- C2, as stated, fails: on a writer whose header was already written with status
500 (the state after `WriteHeader(500)` on a new recorder), a request without header
is rejected and the status stays 500, since a second `WriteHeader` is ignored. -/
theorem Protect_rejected_status_counterexample :
    (NewRecorder.WriteHeader 500).wroteHeader = true ∧
    (Protect h usersNone.toProvider (NewRecorder.WriteHeader 500) (testRequest [])).rejected
      = true ∧
    (Protect h usersNone.toProvider (NewRecorder.WriteHeader 500) (testRequest [])).w.Code
      = 500 ∧
    (Protect h usersNone.toProvider (NewRecorder.WriteHeader 500) (testRequest [])).w.Code
      ≠ 401 := by
  decide

/-- C2, amended. For every request that `Protect(h, p)` rejects, the WWW-Authenticate
entry of the writer's header map is exactly `Basic realm="Restricted"`; the status is
401 if the response header had not been written when the handler was called, and is
left as it was if it had. -/
theorem Protect_rejected_response (h : HandlerFunc) (p : Provider) (w : ResponseWriter)
    (r : Request) (hr : (Protect h p w r).rejected = true) :
    (Protect h p w r).w.HeaderMap.Get (lit "WWW-Authenticate")
      = lit "Basic realm=\"Restricted\"" ∧
    (w.wroteHeader = false → (Protect h p w r).w.Code = 401) ∧
    (w.wroteHeader = true → (Protect h p w r).w.Code = w.Code) := by
  rw [rejected_w h p w r hr]
  exact ⟨fail_challenge w, fail_Code w, fail_Code_written w⟩

/-- C2 amended, on the first test case: no header, empty provider, new recorder. -/
theorem Protect_rejected_response_witness :
    NewRecorder.wroteHeader = false ∧
    (Protect h usersNone.toProvider NewRecorder (testRequest [])).rejected = true ∧
    (Protect h usersNone.toProvider NewRecorder (testRequest [])).w.HeaderMap.Get
      (lit "WWW-Authenticate") = lit "Basic realm=\"Restricted\"" ∧
    (Protect h usersNone.toProvider NewRecorder (testRequest [])).w.Code = 401 :=
  ⟨by decide, by decide,
    (Protect_rejected_response h usersNone.toProvider NewRecorder (testRequest [])
      (by decide)).1,
    (Protect_rejected_response h usersNone.toProvider NewRecorder (testRequest [])
      (by decide)).2.1 (by decide)⟩

/-- C3. A request whose Authorization header is absent, or does not start with the
case-sensitive prefix `"Basic "`, is rejected with the challenge written by `fail`,
for every provider; the provider is not consulted. -/
theorem Protect_rejects_other_scheme (h : HandlerFunc) (p : Provider) (w : ResponseWriter)
    (r : Request)
    (hno : r.Header.lookup (CanonicalMIMEHeaderKey (lit "Authorization")) = none ∨
      ¬ basicPrefix <+: r.Header.Get (lit "Authorization")) :
    Protect h p w r = ⟨fail w, [Event.fail]⟩ := by
  apply Protect_no_scheme
  cases hp : HasPrefix (r.Header.Get (lit "Authorization")) basicPrefix with
  | false => rfl
  | true =>
    have hpre := (HasPrefix_iff _ _).1 hp
    rcases hno with hn | hn
    · have : r.Header.Get (lit "Authorization") = [] := by simp [Header.Get, hn]
      rw [this] at hpre
      exact absurd hpre (by decide)
    · exact absurd hpre hn

/-- C3, on `basic dXNlcjpwYXNzd29yZA==` (lower-case scheme) against a provider for
which the remainder is valid credentials. -/
theorem Protect_rejects_other_scheme_witness :
    (¬ basicPrefix <+: (authRequest (lit "basic dXNlcjpwYXNzd29yZA==")).Header.Get
        (lit "Authorization")) ∧
    Protect h usersBoth.toProvider NewRecorder (authRequest (lit "basic dXNlcjpwYXNzd29yZA=="))
      = ⟨fail NewRecorder, [Event.fail]⟩ :=
  ⟨by decide,
    Protect_rejects_other_scheme h usersBoth.toProvider NewRecorder _ (Or.inr (by decide))⟩

/-- C4. If the request names `user` (its payload is `user`, `':'`, `password`) and
`Find(user)` returns an error, the request is rejected with the challenge written by
`fail`, whatever the error and whatever the password. -/
theorem Protect_rejects_Find_error (h : HandlerFunc) (p : Provider) (w : ResponseWriter)
    (r : Request) (enc user password err : Bytes)
    (hauth : r.Header.Get (lit "Authorization") = basicPrefix ++ enc)
    (hdec : DecodeString enc = some (user ++ 58 :: password)) (hu : (58 : Byte) ∉ user)
    (herr : (p.Find user).2 = some err) :
    Protect h p w r = ⟨fail w, [Event.find user, Event.fail]⟩ := by
  rw [Protect_two_parts h p w r enc user password hauth hdec hu]
  simp [herr]

/-- C4, on the second and third test cases: `user:password` against the empty
provider and against `{"foo": "bar"}`. -/
theorem Protect_rejects_Find_error_witness :
    Protect h usersNone.toProvider NewRecorder
        (authRequest (basicPrefix ++ lit "dXNlcjpwYXNzd29yZA=="))
      = ⟨fail NewRecorder, [Event.find (lit "user"), Event.fail]⟩ ∧
    Protect h usersFoo.toProvider NewRecorder
        (authRequest (basicPrefix ++ lit "dXNlcjpwYXNzd29yZA=="))
      = ⟨fail NewRecorder, [Event.find (lit "user"), Event.fail]⟩ :=
  ⟨Protect_rejects_Find_error h usersNone.toProvider NewRecorder _ (lit "dXNlcjpwYXNzd29yZA==")
      (lit "user") (lit "password") (lit "Can not find user user")
      (by decide) (by decide) (by decide) (by decide),
    Protect_rejects_Find_error h usersFoo.toProvider NewRecorder _ (lit "dXNlcjpwYXNzd29yZA==")
      (lit "user") (lit "password") (lit "Can not find user user")
      (by decide) (by decide) (by decide) (by decide)⟩

/-- C5. Password comparison is exact byte equality: when the request names `user`
with `password` and `Find(user)` returns no error, the request is authenticated if
and only if `password` equals the returned `Password`; any difference gives the
rejection written by `fail`. -/
theorem Protect_accepts_iff_password (h : HandlerFunc) (p : Provider) (w : ResponseWriter)
    (r : Request) (enc user password : Bytes)
    (hauth : r.Header.Get (lit "Authorization") = basicPrefix ++ enc)
    (hdec : DecodeString enc = some (user ++ 58 :: password)) (hu : (58 : Byte) ∉ user)
    (hfind : (p.Find user).2 = none) :
    ((Protect h p w r).accepted = true ↔ password = (p.Find user).1.Password) ∧
    (password ≠ (p.Find user).1.Password →
      Protect h p w r = ⟨fail w, [Event.find user, Event.fail]⟩) := by
  rw [Protect_two_parts h p w r enc user password hauth hdec hu]
  by_cases he : password = (p.Find user).1.Password
  · simp [hfind, Equal, he, Outcome.accepted]
  · simp [hfind, Equal, he, Outcome.accepted]

/-- C5, on `user:Password` (the case of one letter differs) against
`{"foo": "bar", "user": "password"}`: rejected. -/
theorem Protect_accepts_iff_password_witness :
    ((Protect h usersBoth.toProvider NewRecorder
        (authRequest (basicPrefix ++ EncodeToString (lit "user:Password")))).accepted = true ↔
      lit "Password" = (usersBoth.toProvider.Find (lit "user")).1.Password) ∧
    (lit "Password" ≠ (usersBoth.toProvider.Find (lit "user")).1.Password →
      Protect h usersBoth.toProvider NewRecorder
        (authRequest (basicPrefix ++ EncodeToString (lit "user:Password")))
      = ⟨fail NewRecorder, [Event.find (lit "user"), Event.fail]⟩) :=
  Protect_accepts_iff_password h usersBoth.toProvider NewRecorder _
    (EncodeToString (lit "user:Password")) (lit "user") (lit "Password")
    (by decide) (by decide) (by decide) (by decide)

/-- C6, as stated, fails: the header `"Basic dXNlcjpwYXNzd29yZA==\n"` ends in a line
feed, a byte outside the standard alphabet, so the string after the prefix is not
valid padded Base64; Go's decoder ignores `'\r'` and `'\n'`, and the request is
authenticated. -/
theorem Protect_accepts_newline_counterexample :
    inAlphabet 10 = false ∧
    validStd (lit "dXNlcjpwYXNzd29yZA==\n") = false ∧
    (authRequest (lit "Basic dXNlcjpwYXNzd29yZA==\n")).Header.Get (lit "Authorization")
      = basicPrefix ++ lit "dXNlcjpwYXNzd29yZA==\n" ∧
    (Protect h usersBoth.toProvider NewRecorder
      (authRequest (lit "Basic dXNlcjpwYXNzd29yZA==\n"))).accepted = true ∧
    (Protect h usersBoth.toProvider NewRecorder
      (authRequest (lit "Basic dXNlcjpwYXNzd29yZA==\n"))).rejected = false := by
  decide

/-- C6, amended. If the string after `"Basic "`, with every `'\r'` and `'\n'`
removed, is not valid standard padded Base64 (a byte outside the alphabet, or missing
or malformed padding), the request is rejected with the challenge written by `fail`,
for every provider; the provider is not consulted. -/
theorem Protect_rejects_invalid_base64 (h : HandlerFunc) (p : Provider) (w : ResponseWriter)
    (r : Request) (enc : Bytes)
    (hauth : r.Header.Get (lit "Authorization") = basicPrefix ++ enc)
    (hinv : validStd (stripNewlines enc) = false) :
    Protect h p w r = ⟨fail w, [Event.fail]⟩ := by
  apply Protect_no_decode h p w r enc hauth
  rw [DecodeString_eq]
  rw [validStd_eq] at hinv
  simpa using hinv

/-- C6 amended, on the unpadded `dXNlcjpwYXNzd29yZA` and on the URL-safe
`dXNlcjpwYXNzd29yZA-_`. -/
theorem Protect_rejects_invalid_base64_witness :
    validStd (stripNewlines (lit "dXNlcjpwYXNzd29yZA")) = false ∧
    Protect h usersBoth.toProvider NewRecorder (authRequest (lit "Basic dXNlcjpwYXNzd29yZA"))
      = ⟨fail NewRecorder, [Event.fail]⟩ ∧
    validStd (stripNewlines (lit "dXNlcjpwYXNzd29yZA-_")) = false ∧
    Protect h usersBoth.toProvider NewRecorder (authRequest (lit "Basic dXNlcjpwYXNzd29yZA-_"))
      = ⟨fail NewRecorder, [Event.fail]⟩ :=
  ⟨by decide,
    Protect_rejects_invalid_base64 h usersBoth.toProvider NewRecorder _
      (lit "dXNlcjpwYXNzd29yZA") (by decide) (by decide),
    by decide,
    Protect_rejects_invalid_base64 h usersBoth.toProvider NewRecorder _
      (lit "dXNlcjpwYXNzd29yZA-_") (by decide) (by decide)⟩

/-- C7. If the string after `"Basic "` decodes to a payload with no `':'` byte (the
empty payload included), the request is rejected with the challenge written by
`fail`, for every provider; `Find` is not called, so the payload is not taken for a
user name. -/
theorem Protect_rejects_without_colon (h : HandlerFunc) (p : Provider) (w : ResponseWriter)
    (r : Request) (enc payload : Bytes)
    (hauth : r.Header.Get (lit "Authorization") = basicPrefix ++ enc)
    (hdec : DecodeString enc = some payload) (hno : (58 : Byte) ∉ payload) :
    Protect h p w r = ⟨fail w, [Event.fail]⟩ :=
  Protect_one_part h p w r enc payload hauth hdec hno

/-- C7, on the header `"Basic "` (empty payload) and on the payload `user` against a
provider that knows `user`. -/
theorem Protect_rejects_without_colon_witness :
    DecodeString [] = some [] ∧
    Protect h usersBoth.toProvider NewRecorder (authRequest (lit "Basic "))
      = ⟨fail NewRecorder, [Event.fail]⟩ ∧
    DecodeString (lit "dXNlcg==") = some (lit "user") ∧
    Protect h usersBoth.toProvider NewRecorder (authRequest (lit "Basic dXNlcg=="))
      = ⟨fail NewRecorder, [Event.fail]⟩ :=
  ⟨by decide,
    Protect_rejects_without_colon h usersBoth.toProvider NewRecorder _ [] []
      (by decide) (by decide) (by decide),
    by decide,
    Protect_rejects_without_colon h usersBoth.toProvider NewRecorder _ (lit "dXNlcg==")
      (lit "user") (by decide) (by decide) (by decide)⟩

/-- C8. The payload is split at its first `':'` only: for a payload `u`, `':'`, `pw`
with no `':'` in `u`, `SplitN` gives the two parts `u` and `pw` (further `':'` bytes
stay in `pw`); the request is authenticated exactly when `Find(u)` returns no error
and the password `pw`; and `Find` is called with no argument other than `u`. -/
theorem Protect_splits_at_first_colon (h : HandlerFunc) (p : Provider) (w : ResponseWriter)
    (r : Request) (enc u pw : Bytes)
    (hauth : r.Header.Get (lit "Authorization") = basicPrefix ++ enc)
    (hdec : DecodeString enc = some (u ++ 58 :: pw)) (hu : (58 : Byte) ∉ u) :
    SplitN (u ++ 58 :: pw) (lit ":") 2 = [u, pw] ∧
    ((Protect h p w r).accepted = true ↔
      ((p.Find u).2 = none ∧ (p.Find u).1.Password = pw)) ∧
    (∀ x, Event.find x ∈ (Protect h p w r).events → x = u) := by
  refine ⟨by rw [lit_colon]; exact SplitN_first_sep 58 u pw hu, ?_, ?_⟩
  · rw [Protect_two_parts h p w r enc u pw hauth hdec hu]
    cases he : (p.Find u).2 with
    | some e => simp [Outcome.accepted]
    | none =>
      by_cases hq : pw = (p.Find u).1.Password
      · simp [Equal, hq, Outcome.accepted]
      · have hq2 : ¬ (p.Find u).1.Password = pw := fun e => hq e.symm
        simp [Equal, hq, hq2, Outcome.accepted]
  · intro x hx
    rw [Protect_two_parts h p w r enc u pw hauth hdec hu] at hx
    by_cases hb : ((p.Find u).2.isSome || !Equal pw (p.Find u).1.Password) = true
    · simp only [hb, if_true] at hx
      simpa using hx
    · simp only [hb, if_false] at hx
      simpa using hx

/-- C8, on the payload `u:p1:p2`: accepted by a provider holding the password `p1:p2`
for `u`; the only lookup is for `u`, not for `u:p1`. -/
theorem Protect_splits_at_first_colon_witness :
    SplitN (lit "u" ++ 58 :: lit "p1:p2") (lit ":") 2 = [lit "u", lit "p1:p2"] ∧
    ((Protect h (provider.toProvider ⟨[(lit "u", lit "p1:p2"), (lit "u:p1", lit "p2")]⟩)
        NewRecorder (authRequest (basicPrefix ++ EncodeToString (lit "u:p1:p2")))).accepted = true
      ↔ (((provider.toProvider ⟨[(lit "u", lit "p1:p2"), (lit "u:p1", lit "p2")]⟩).Find
            (lit "u")).2 = none ∧
          ((provider.toProvider ⟨[(lit "u", lit "p1:p2"), (lit "u:p1", lit "p2")]⟩).Find
            (lit "u")).1.Password = lit "p1:p2")) ∧
    (∀ x, Event.find x ∈
        (Protect h (provider.toProvider ⟨[(lit "u", lit "p1:p2"), (lit "u:p1", lit "p2")]⟩)
          NewRecorder (authRequest (basicPrefix ++ EncodeToString (lit "u:p1:p2")))).events →
      x = lit "u") :=
  Protect_splits_at_first_colon h _ NewRecorder _ (EncodeToString (lit "u:p1:p2"))
    (lit "u") (lit "p1:p2") (by decide) (by decide) (by decide)

/-- C9. On the success path the decorator adds nothing: when the request is
authenticated, the resulting response (status, headers, body) is exactly that of the
inner handler run on the same writer and request; the handler received the original
writer and request, and `fail`, which sets WWW-Authenticate, was not called. -/
theorem Protect_success_is_handler (h : HandlerFunc) (p : Provider) (w : ResponseWriter)
    (r : Request) (ha : (Protect h p w r).accepted = true) :
    (Protect h p w r).w = h w r ∧
    Event.handler w r ∈ (Protect h p w r).events ∧
    Event.fail ∉ (Protect h p w r).events := by
  rcases Protect_outcome h p w r with e | ⟨u, e⟩ | ⟨u, e⟩
  · simp [e, Outcome.accepted] at ha
  · simp [e, Outcome.accepted] at ha
  · simp [e]

/-- C9, on the fourth test case: the response is the inner handler's, and it has no
WWW-Authenticate header. -/
theorem Protect_success_is_handler_witness :
    (Protect h usersBoth.toProvider NewRecorder
      (authRequest (lit "Basic dXNlcjpwYXNzd29yZA=="))).accepted = true ∧
    ((Protect h usersBoth.toProvider NewRecorder
        (authRequest (lit "Basic dXNlcjpwYXNzd29yZA=="))).w
      = h NewRecorder (authRequest (lit "Basic dXNlcjpwYXNzd29yZA==")) ∧
    Event.handler NewRecorder (authRequest (lit "Basic dXNlcjpwYXNzd29yZA==")) ∈
      (Protect h usersBoth.toProvider NewRecorder
        (authRequest (lit "Basic dXNlcjpwYXNzd29yZA=="))).events ∧
    Event.fail ∉
      (Protect h usersBoth.toProvider NewRecorder
        (authRequest (lit "Basic dXNlcjpwYXNzd29yZA=="))).events) ∧
    (Protect h usersBoth.toProvider NewRecorder
      (authRequest (lit "Basic dXNlcjpwYXNzd29yZA=="))).w.HeaderMap.Get
        (lit "WWW-Authenticate") = [] :=
  ⟨by decide,
    Protect_success_is_handler h usersBoth.toProvider NewRecorder
      (authRequest (lit "Basic dXNlcjpwYXNzd29yZA==")) (by decide),
    by decide⟩

/-- C10. The two construction forms agree: for every provider, handler, writer and
request, `New(p).Protect(h)` has the same outcome as `Protect(h, p)`: the same
response and the same calls to `p`, to `h` and to `fail`. -/
theorem New_Protect_eq_Protect (p : Provider) (h : HandlerFunc) (w : ResponseWriter)
    (r : Request) : (New p).Protect h w r = Protect h p w r :=
  rfl


/-- C11, as stated, fails: on the first test case (no header, empty provider) the
request is rejected and the body written is `Unauthorized` followed by a line feed,
not the bare reason phrase; `http.Error` writes its text with `fmt.Fprintln`. -/
theorem Protect_rejected_body_counterexample :
    (Protect h usersNone.toProvider NewRecorder (testRequest [])).rejected = true ∧
    (Protect h usersNone.toProvider NewRecorder (testRequest [])).w.Body
      ≠ lit "Unauthorized" ∧
    (Protect h usersNone.toProvider NewRecorder (testRequest [])).w.Body
      = lit "Unauthorized\n" := by
  decide

/-- C11, amended. For every request that `Protect(h, p)` rejects, what is written to
the body is the reason phrase of status 401, `Unauthorized`, followed by one line
feed, and nothing else: the body afterwards is the body before with these bytes
appended. -/
theorem Protect_rejected_body (h : HandlerFunc) (p : Provider) (w : ResponseWriter)
    (r : Request) (hr : (Protect h p w r).rejected = true) :
    (Protect h p w r).w.Body = w.Body ++ (StatusText StatusUnauthorized ++ [10]) ∧
    StatusText StatusUnauthorized = lit "Unauthorized" := by
  rw [rejected_w h p w r hr, fail_Body]
  refine ⟨?_, StatusText_unauthorized⟩
  rw [StatusText_unauthorized]
  have e : lit "Unauthorized\n" = lit "Unauthorized" ++ [10] := by decide
  rw [e]

/-- C11 amended, on the third test case: `user:password` against `{"foo": "bar"}`. -/
theorem Protect_rejected_body_witness :
    (Protect h usersFoo.toProvider NewRecorder
      (authRequest (lit "Basic dXNlcjpwYXNzd29yZA=="))).rejected = true ∧
    ((Protect h usersFoo.toProvider NewRecorder
        (authRequest (lit "Basic dXNlcjpwYXNzd29yZA=="))).w.Body
      = NewRecorder.Body ++ (StatusText StatusUnauthorized ++ [10]) ∧
    StatusText StatusUnauthorized = lit "Unauthorized") :=
  ⟨by decide,
    Protect_rejected_body h usersFoo.toProvider NewRecorder
      (authRequest (lit "Basic dXNlcjpwYXNzd29yZA==")) (by decide)⟩

/-- C12. Uniform failure: any two rejected requests, whatever the reason for each and
whatever the handlers and providers, leave the same response (status, headers, body)
when started from the same writer state. -/
theorem Protect_rejections_identical (h1 h2 : HandlerFunc) (p1 p2 : Provider)
    (w : ResponseWriter) (r1 r2 : Request)
    (hr1 : (Protect h1 p1 w r1).rejected = true) (hr2 : (Protect h2 p2 w r2).rejected = true) :
    (Protect h1 p1 w r1).w = (Protect h2 p2 w r2).w ∧
    (Protect h1 p1 w r1).w.Code = (Protect h2 p2 w r2).w.Code ∧
    (Protect h1 p1 w r1).w.HeaderMap = (Protect h2 p2 w r2).w.HeaderMap ∧
    (Protect h1 p1 w r1).w.Body = (Protect h2 p2 w r2).w.Body := by
  rw [rejected_w h1 p1 w r1 hr1, rejected_w h2 p2 w r2 hr2]
  exact ⟨rfl, rfl, rfl, rfl⟩

/-- C12, on a request without header against the empty provider and a request with a
wrong password against a provider that knows the user. -/
theorem Protect_rejections_identical_witness :
    (Protect h usersNone.toProvider NewRecorder (testRequest [])).rejected = true ∧
    (Protect h usersBoth.toProvider NewRecorder
      (authRequest (basicPrefix ++ EncodeToString (lit "user:wrong")))).rejected = true ∧
    ((Protect h usersNone.toProvider NewRecorder (testRequest [])).w
      = (Protect h usersBoth.toProvider NewRecorder
          (authRequest (basicPrefix ++ EncodeToString (lit "user:wrong")))).w ∧
    (Protect h usersNone.toProvider NewRecorder (testRequest [])).w.Code
      = (Protect h usersBoth.toProvider NewRecorder
          (authRequest (basicPrefix ++ EncodeToString (lit "user:wrong")))).w.Code ∧
    (Protect h usersNone.toProvider NewRecorder (testRequest [])).w.HeaderMap
      = (Protect h usersBoth.toProvider NewRecorder
          (authRequest (basicPrefix ++ EncodeToString (lit "user:wrong")))).w.HeaderMap ∧
    (Protect h usersNone.toProvider NewRecorder (testRequest [])).w.Body
      = (Protect h usersBoth.toProvider NewRecorder
          (authRequest (basicPrefix ++ EncodeToString (lit "user:wrong")))).w.Body) :=
  ⟨by decide, by decide,
    Protect_rejections_identical h h usersNone.toProvider usersBoth.toProvider NewRecorder
      (testRequest []) (authRequest (basicPrefix ++ EncodeToString (lit "user:wrong")))
      (by decide) (by decide)⟩

/-- C13. The inner handler is invoked if and only if all checks pass: the
Authorization value is `"Basic "` followed by a string that the decoder accepts, the
payload is `u`, `':'`, `pw` with no `':'` in `u`, `Find(u)` returns no error, and the
returned password equals `pw`. When they pass, `h` is called exactly once; on a
rejection it is not called; and every request is either accepted or rejected. -/
theorem Protect_accepts_iff_checks (h : HandlerFunc) (p : Provider) (w : ResponseWriter)
    (r : Request) :
    ((Protect h p w r).accepted = true ↔
      ∃ enc u pw, r.Header.Get (lit "Authorization") = basicPrefix ++ enc ∧
        DecodeString enc = some (u ++ 58 :: pw) ∧ (58 : Byte) ∉ u ∧
        (p.Find u).2 = none ∧ (p.Find u).1.Password = pw) ∧
    ((Protect h p w r).accepted = true → (Protect h p w r).handlerCalls = 1) ∧
    ((Protect h p w r).rejected = true → (Protect h p w r).handlerCalls = 0) ∧
    ((Protect h p w r).accepted = true ∨ (Protect h p w r).rejected = true) := by
  refine ⟨⟨?_, ?_⟩, ?_, ?_, ?_⟩
  · intro ha
    by_cases hp : HasPrefix (r.Header.Get (lit "Authorization")) basicPrefix = true
    · obtain ⟨enc, hauth⟩ := (HasPrefix_iff _ _).1 hp
      have hauth := hauth.symm
      cases hdec : DecodeString enc with
      | none =>
        rw [Protect_no_decode h p w r enc hauth hdec] at ha
        simp [Outcome.accepted] at ha
      | some payload =>
        by_cases hc : (58 : Byte) ∈ payload
        · obtain ⟨u, pw, rfl, hu⟩ := exists_first 58 payload hc
          refine ⟨enc, u, pw, hauth, hdec, hu, ?_⟩
          rw [Protect_two_parts h p w r enc u pw hauth hdec hu] at ha
          by_cases hb : ((p.Find u).2.isSome || !Equal pw (p.Find u).1.Password) = true
          · simp only [hb, if_true] at ha
            simp [Outcome.accepted] at ha
          · cases hf : (p.Find u).2 with
            | some e => simp [hf] at hb
            | none =>
              by_cases hq : pw = (p.Find u).1.Password
              · exact ⟨rfl, hq.symm⟩
              · simp [hf, Equal, hq] at hb
        · rw [Protect_one_part h p w r enc payload hauth hdec hc] at ha
          simp [Outcome.accepted] at ha
    · rw [Protect_no_scheme h p w r (by simpa using hp)] at ha
      simp [Outcome.accepted] at ha
  · rintro ⟨enc, u, pw, hauth, hdec, hu, hfind, hpw⟩
    rw [Protect_two_parts h p w r enc u pw hauth hdec hu]
    simp [hfind, hpw, Equal, Outcome.accepted]
  · intro ha
    rcases Protect_outcome h p w r with e | ⟨u, e⟩ | ⟨u, e⟩
    · simp [e, Outcome.accepted] at ha
    · simp [e, Outcome.accepted] at ha
    · simp [e, Outcome.handlerCalls]
  · intro hr
    rcases Protect_outcome h p w r with e | ⟨u, e⟩ | ⟨u, e⟩
    · simp [e, Outcome.handlerCalls]
    · simp [e, Outcome.handlerCalls]
    · simp [e, Outcome.rejected] at hr
  · rcases Protect_outcome h p w r with e | ⟨u, e⟩ | ⟨u, e⟩
    · exact Or.inr (by simp [e, Outcome.rejected])
    · exact Or.inr (by simp [e, Outcome.rejected])
    · exact Or.inl (by simp [e, Outcome.accepted])

/-- C13, on the fourth test case (accepted, one call of `h`) and, in the second
component, on the second test case (rejected, no call of `h`). -/
theorem Protect_accepts_iff_checks_witness :
    ((Protect h usersBoth.toProvider NewRecorder
      (authRequest (lit "Basic dXNlcjpwYXNzd29yZA=="))).accepted = true ∧
    (Protect h usersBoth.toProvider NewRecorder
      (authRequest (lit "Basic dXNlcjpwYXNzd29yZA=="))).handlerCalls = 1) ∧
    ((Protect h usersNone.toProvider NewRecorder
      (authRequest (lit "Basic dXNlcjpwYXNzd29yZA=="))).rejected = true ∧
    (Protect h usersNone.toProvider NewRecorder
      (authRequest (lit "Basic dXNlcjpwYXNzd29yZA=="))).handlerCalls = 0) :=
  ⟨⟨by decide,
      (Protect_accepts_iff_checks h usersBoth.toProvider NewRecorder
        (authRequest (lit "Basic dXNlcjpwYXNzd29yZA=="))).2.1 (by decide)⟩,
    ⟨by decide,
      (Protect_accepts_iff_checks h usersNone.toProvider NewRecorder
        (authRequest (lit "Basic dXNlcjpwYXNzd29yZA=="))).2.2.1 (by decide)⟩⟩

/-- C14. No panic path: for every request, provider and handler, the handler
returned by `Protect` ends without a slice or index out of range. The slice
`auth[len(prefix):]` is in range whenever `strings.HasPrefix(auth, prefix)` holds, and
`pair[0]`, `pair[1]` are in range whenever `len(pair) == 2`. -/
theorem Protect_no_panic (h : HandlerFunc) (p : Provider) (w : ResponseWriter) (r : Request) :
    Event.panic ∉ (Protect h p w r).events ∧
    (HasPrefix (r.Header.Get (lit "Authorization")) basicPrefix = true →
      (sliceFrom (r.Header.Get (lit "Authorization")) basicPrefix.length).isSome = true) ∧
    (∀ payload : Bytes, (SplitN payload (lit ":") 2).length = 2 →
      ((SplitN payload (lit ":") 2)[0]?).isSome = true ∧
      ((SplitN payload (lit ":") 2)[1]?).isSome = true) := by
  refine ⟨?_, ?_, ?_⟩
  · rcases Protect_outcome h p w r with e | ⟨u, e⟩ | ⟨u, e⟩ <;> simp [e]
  · intro hp
    rw [sliceFrom_of_HasPrefix _ _ hp]
    rfl
  · intro payload hlen
    generalize SplitN payload (lit ":") 2 = pair at hlen
    rcases pair with _ | ⟨a, _ | ⟨b, _ | ⟨c, t⟩⟩⟩ <;> simp at hlen ⊢

/-- C14, on the header that is exactly `"Basic "`: the prefix check holds, the slice
is the empty string, and the request ends in a rejection, not a panic. -/
theorem Protect_no_panic_witness :
    HasPrefix ((authRequest (lit "Basic ")).Header.Get (lit "Authorization")) basicPrefix
      = true ∧
    (sliceFrom ((authRequest (lit "Basic ")).Header.Get (lit "Authorization"))
      basicPrefix.length).isSome = true ∧
    Event.panic ∉
      (Protect h usersBoth.toProvider NewRecorder (authRequest (lit "Basic "))).events ∧
    (Protect h usersBoth.toProvider NewRecorder (authRequest (lit "Basic "))).rejected = true :=
  ⟨by decide,
    (Protect_no_panic h usersBoth.toProvider NewRecorder (authRequest (lit "Basic "))).2.1
      (by decide),
    (Protect_no_panic h usersBoth.toProvider NewRecorder (authRequest (lit "Basic "))).1,
    by decide⟩

/-- With a provider and a handler whose results do not depend on their state, the
outcome is that of `Protect` on the corresponding functions, whatever the states. -/
theorem ProtectStateful_outcome {σ τ : Type} (h : StatefulHandlerFunc τ)
    (p : StatefulProvider σ) (find : Bytes → Credentials × Option Bytes) (run : HandlerFunc)
    (hp : ∀ s u, (p.Find s u).1 = find u) (hh : ∀ t w r, (h t w r).1 = run w r)
    (s : σ) (t : τ) (w : ResponseWriter) (r : Request) :
    (ProtectStateful h p s t w r).outcome = Protect run ⟨find⟩ w r := by
  simp only [ProtectStateful, Protect, hp, hh]
  cases HasPrefix (r.Header.Get (lit "Authorization")) basicPrefix with
  | false => rfl
  | true =>
    simp only [Bool.not_true, Bool.false_eq_true, if_false]
    cases sliceFrom (r.Header.Get (lit "Authorization")) basicPrefix.length with
    | none => rfl
    | some enc =>
      simp only
      cases DecodeString enc with
      | none => rfl
      | some payload =>
        dsimp only
        by_cases hl : (SplitN payload (lit ":") 2).length ≠ 2
        · rw [if_pos hl, if_pos hl]
        · rw [if_neg hl, if_neg hl]
          cases (SplitN payload (lit ":") 2)[0]? with
          | none => rfl
          | some user =>
            cases (SplitN payload (lit ":") 2)[1]? with
            | none => rfl
            | some password =>
              simp only
              by_cases hb : ((find user).2.isSome || !Equal password (find user).1.Password) = true
              · rw [if_pos hb, if_pos hb]
              · rw [if_neg hb, if_neg hb]

/-- C15. Idempotence: for a provider and an inner handler that are deterministic
(their results do not depend on their own state, which they may change), handling the
same request twice from the same writer state, the second time with the
collaborators as the first call left them, gives the same outcome both times: the
same accept or reject decision, the same response and the same calls. -/
theorem ProtectStateful_idempotent {σ τ : Type} (h : StatefulHandlerFunc τ)
    (p : StatefulProvider σ) (find : Bytes → Credentials × Option Bytes) (run : HandlerFunc)
    (hp : ∀ s u, (p.Find s u).1 = find u) (hh : ∀ t w r, (h t w r).1 = run w r)
    (s : σ) (t : τ) (w : ResponseWriter) (r : Request) :
    (ProtectStateful h p (ProtectStateful h p s t w r).provider
        (ProtectStateful h p s t w r).handler w r).outcome
      = (ProtectStateful h p s t w r).outcome ∧
    (ProtectStateful h p (ProtectStateful h p s t w r).provider
        (ProtectStateful h p s t w r).handler w r).outcome.accepted
      = (ProtectStateful h p s t w r).outcome.accepted ∧
    (ProtectStateful h p (ProtectStateful h p s t w r).provider
        (ProtectStateful h p s t w r).handler w r).outcome.w
      = (ProtectStateful h p s t w r).outcome.w := by
  have e1 := ProtectStateful_outcome h p find run hp hh s t w r
  have e2 := ProtectStateful_outcome h p find run hp hh
    (ProtectStateful h p s t w r).provider (ProtectStateful h p s t w r).handler w r
  rw [e2, e1]
  exact ⟨rfl, rfl, rfl⟩

/-- C15, on the fourth test case with a provider and a handler that count their
calls: the first call moves both counters from 0 to 1, and the second call, started
from these, is accepted with the same response. -/
theorem ProtectStateful_idempotent_witness :
    (ProtectStateful countingHandler countingProvider 0 0 NewRecorder
      (authRequest (lit "Basic dXNlcjpwYXNzd29yZA=="))).provider = 1 ∧
    (ProtectStateful countingHandler countingProvider 0 0 NewRecorder
      (authRequest (lit "Basic dXNlcjpwYXNzd29yZA=="))).handler = 1 ∧
    (ProtectStateful countingHandler countingProvider 0 0 NewRecorder
      (authRequest (lit "Basic dXNlcjpwYXNzd29yZA=="))).outcome.accepted = true ∧
    ((ProtectStateful countingHandler countingProvider
        (ProtectStateful countingHandler countingProvider 0 0 NewRecorder
          (authRequest (lit "Basic dXNlcjpwYXNzd29yZA=="))).provider
        (ProtectStateful countingHandler countingProvider 0 0 NewRecorder
          (authRequest (lit "Basic dXNlcjpwYXNzd29yZA=="))).handler NewRecorder
        (authRequest (lit "Basic dXNlcjpwYXNzd29yZA=="))).outcome
      = (ProtectStateful countingHandler countingProvider 0 0 NewRecorder
          (authRequest (lit "Basic dXNlcjpwYXNzd29yZA=="))).outcome ∧
    (ProtectStateful countingHandler countingProvider
        (ProtectStateful countingHandler countingProvider 0 0 NewRecorder
          (authRequest (lit "Basic dXNlcjpwYXNzd29yZA=="))).provider
        (ProtectStateful countingHandler countingProvider 0 0 NewRecorder
          (authRequest (lit "Basic dXNlcjpwYXNzd29yZA=="))).handler NewRecorder
        (authRequest (lit "Basic dXNlcjpwYXNzd29yZA=="))).outcome.accepted
      = (ProtectStateful countingHandler countingProvider 0 0 NewRecorder
          (authRequest (lit "Basic dXNlcjpwYXNzd29yZA=="))).outcome.accepted ∧
    (ProtectStateful countingHandler countingProvider
        (ProtectStateful countingHandler countingProvider 0 0 NewRecorder
          (authRequest (lit "Basic dXNlcjpwYXNzd29yZA=="))).provider
        (ProtectStateful countingHandler countingProvider 0 0 NewRecorder
          (authRequest (lit "Basic dXNlcjpwYXNzd29yZA=="))).handler NewRecorder
        (authRequest (lit "Basic dXNlcjpwYXNzd29yZA=="))).outcome.w
      = (ProtectStateful countingHandler countingProvider 0 0 NewRecorder
          (authRequest (lit "Basic dXNlcjpwYXNzd29yZA=="))).outcome.w) :=
  ⟨by decide, by decide, by decide,
    ProtectStateful_idempotent countingHandler countingProvider usersBoth.Find h
      (fun _ _ => rfl) (fun _ _ _ => rfl) 0 0 NewRecorder
      (authRequest (lit "Basic dXNlcjpwYXNzd29yZA=="))⟩

/-- C16. `Find` is called at most once. It is called exactly once, with the payload
bytes before the first `':'` unmodified (possibly empty), when the header starts with
`"Basic "`, the rest decodes and the payload has a `':'`; it is not called when the
prefix is missing, when decoding fails, or when the payload has no `':'`. -/
theorem Protect_Find_calls (h : HandlerFunc) (p : Provider) (w : ResponseWriter) (r : Request) :
    (Protect h p w r).findCalls.length ≤ 1 ∧
    (∀ enc u pw, r.Header.Get (lit "Authorization") = basicPrefix ++ enc →
      DecodeString enc = some (u ++ 58 :: pw) → (58 : Byte) ∉ u →
      (Protect h p w r).findCalls = [u]) ∧
    (HasPrefix (r.Header.Get (lit "Authorization")) basicPrefix = false →
      (Protect h p w r).findCalls = []) ∧
    (∀ enc, r.Header.Get (lit "Authorization") = basicPrefix ++ enc →
      DecodeString enc = none → (Protect h p w r).findCalls = []) ∧
    (∀ enc payload, r.Header.Get (lit "Authorization") = basicPrefix ++ enc →
      DecodeString enc = some payload → (58 : Byte) ∉ payload →
      (Protect h p w r).findCalls = []) := by
  refine ⟨?_, ?_, ?_, ?_, ?_⟩
  · rcases Protect_outcome h p w r with e | ⟨u, e⟩ | ⟨u, e⟩ <;> simp [e, Outcome.findCalls]
  · intro enc u pw hauth hdec hu
    rw [Protect_two_parts h p w r enc u pw hauth hdec hu]
    by_cases hb : ((p.Find u).2.isSome || !Equal pw (p.Find u).1.Password) = true
    · simp only [hb, if_true]
      simp [Outcome.findCalls]
    · simp only [hb, if_false]
      simp [Outcome.findCalls]
  · intro hp
    rw [Protect_no_scheme h p w r hp]
    simp [Outcome.findCalls]
  · intro enc hauth hdec
    rw [Protect_no_decode h p w r enc hauth hdec]
    simp [Outcome.findCalls]
  · intro enc payload hauth hdec hno
    rw [Protect_one_part h p w r enc payload hauth hdec hno]
    simp [Outcome.findCalls]

/-- C16, on the payload `:password` (empty user): one call, `Find("")`; and on the
header `Bearer x`: no call. -/
theorem Protect_Find_calls_witness :
    DecodeString (EncodeToString (lit ":password")) = some ([] ++ 58 :: lit "password") ∧
    (Protect h usersBoth.toProvider NewRecorder
      (authRequest (basicPrefix ++ EncodeToString (lit ":password")))).findCalls = [[]] ∧
    (Protect h usersBoth.toProvider NewRecorder (authRequest (lit "Bearer x"))).findCalls = [] :=
  ⟨by decide,
    (Protect_Find_calls h usersBoth.toProvider NewRecorder
      (authRequest (basicPrefix ++ EncodeToString (lit ":password")))).2.1
      (EncodeToString (lit ":password")) [] (lit "password") (by decide) (by decide) (by decide),
    (Protect_Find_calls h usersBoth.toProvider NewRecorder
      (authRequest (lit "Bearer x"))).2.2.1 (by decide)⟩

/-- C17. The `User` field of the credentials returned by `Find` is ignored: if two
providers agree, for the user the request names, on whether `Find` returns an error
and on the `Password` field, then `Protect` makes the same decision and produces the
same response (and the same calls) with either, whatever their `User` fields are. -/
theorem Protect_ignores_User (h : HandlerFunc) (p1 p2 : Provider) (w : ResponseWriter)
    (r : Request)
    (hagree : ∀ enc u pw, r.Header.Get (lit "Authorization") = basicPrefix ++ enc →
      DecodeString enc = some (u ++ 58 :: pw) → (58 : Byte) ∉ u →
      ((p1.Find u).2.isSome = (p2.Find u).2.isSome ∧
        (p1.Find u).1.Password = (p2.Find u).1.Password)) :
    Protect h p1 w r = Protect h p2 w r ∧
    (Protect h p1 w r).accepted = (Protect h p2 w r).accepted ∧
    (Protect h p1 w r).w = (Protect h p2 w r).w := by
  have key : Protect h p1 w r = Protect h p2 w r := by
    by_cases hp : HasPrefix (r.Header.Get (lit "Authorization")) basicPrefix = true
    · obtain ⟨enc, hauth⟩ := (HasPrefix_iff _ _).1 hp
      have hauth := hauth.symm
      cases hdec : DecodeString enc with
      | none =>
        rw [Protect_no_decode h p1 w r enc hauth hdec, Protect_no_decode h p2 w r enc hauth hdec]
      | some payload =>
        by_cases hc : (58 : Byte) ∈ payload
        · obtain ⟨u, pw, rfl, hu⟩ := exists_first 58 payload hc
          obtain ⟨he, hq⟩ := hagree enc u pw hauth hdec hu
          rw [Protect_two_parts h p1 w r enc u pw hauth hdec hu,
            Protect_two_parts h p2 w r enc u pw hauth hdec hu, he, hq]
        · rw [Protect_one_part h p1 w r enc payload hauth hdec hc,
            Protect_one_part h p2 w r enc payload hauth hdec hc]
    · have hp2 : HasPrefix (r.Header.Get (lit "Authorization")) basicPrefix = false := by
        simpa using hp
      rw [Protect_no_scheme h p1 w r hp2, Protect_no_scheme h p2 w r hp2]
  exact ⟨key, by rw [key], by rw [key]⟩

/-- C17, on `user:password` against `{"foo": "bar", "user": "password"}` and against
the same provider with every `User` replaced by `root`: the `User` fields differ,
the outcomes are equal, and the request is accepted. -/
theorem Protect_ignores_User_witness :
    (usersBoth.toProvider.Find (lit "user")).1.User
      ≠ ((withUser usersBoth.toProvider (lit "root")).Find (lit "user")).1.User ∧
    (Protect h usersBoth.toProvider NewRecorder
      (authRequest (lit "Basic dXNlcjpwYXNzd29yZA=="))).accepted = true ∧
    (Protect h usersBoth.toProvider NewRecorder (authRequest (lit "Basic dXNlcjpwYXNzd29yZA=="))
      = Protect h (withUser usersBoth.toProvider (lit "root")) NewRecorder
          (authRequest (lit "Basic dXNlcjpwYXNzd29yZA==")) ∧
    (Protect h usersBoth.toProvider NewRecorder
        (authRequest (lit "Basic dXNlcjpwYXNzd29yZA=="))).accepted
      = (Protect h (withUser usersBoth.toProvider (lit "root")) NewRecorder
          (authRequest (lit "Basic dXNlcjpwYXNzd29yZA=="))).accepted ∧
    (Protect h usersBoth.toProvider NewRecorder
        (authRequest (lit "Basic dXNlcjpwYXNzd29yZA=="))).w
      = (Protect h (withUser usersBoth.toProvider (lit "root")) NewRecorder
          (authRequest (lit "Basic dXNlcjpwYXNzd29yZA=="))).w) :=
  ⟨by decide, by decide,
    Protect_ignores_User h usersBoth.toProvider (withUser usersBoth.toProvider (lit "root"))
      NewRecorder (authRequest (lit "Basic dXNlcjpwYXNzd29yZA=="))
      (fun _ _ _ _ _ _ => ⟨rfl, rfl⟩)⟩

end Basicauth
